import Mathlib

set_option maxHeartbeats 1600000
set_option maxRecDepth 8000

/-!
Shallow embedding of the palace-server game rules engine
(src/palace_server/src/game.rs), the reduced simulation game used by the
ISMCTS AI (src/palace_server/src/monte_game.rs), and the two lobby-server
operations ListLobbies and Reconnect (src/palace_server/src/lib.rs),
together with theorems settling the frozen claims about them.

Modelling conventions:
* Rust `u8`/`usize` indices and counts become `Nat`; all index arithmetic in
  the engine stays far below any overflow boundary, and where the source
  could overflow or panic the embedding makes the outcome explicit.
* `Vec<Card>` becomes `List Card`; `Box<[Vec<Card>]>` becomes
  `List (List Card)`.
* Mutation is threaded explicitly: fallible mutating methods return the
  result together with the state as mutated so far, so that an early
  `return Err(..)` carries exactly the mutations the Rust code had already
  performed at that point.
* A Rust panic (`unwrap` on `None`/`Err`) is a distinguished `panicked`
  result, separate from `Err` returns.
* `Instant` fields (`last_turn_start`, `creation_time`) model wall-clock
  time and are omitted; no claim concerns them.
-/

namespace Palace

/-- Card suits, from `enum CardSuit` in game.rs. -/
inductive CardSuit where
  | Clubs
  | Diamonds
  | Hearts
  | Spades
deriving DecidableEq, Repr

/-- Card values Two..Ace, from `enum CardValue` in game.rs (declaration
order is the derived `Ord` order in Rust). -/
inductive CardValue where
  | Two
  | Three
  | Four
  | Five
  | Six
  | Seven
  | Eight
  | Nine
  | Ten
  | Jack
  | Queen
  | King
  | Ace
deriving DecidableEq, Repr

/-- Numeric rank of a suit in Rust declaration order (derived `Ord`). -/
def CardSuit.toNat : CardSuit → Nat
  | .Clubs => 0
  | .Diamonds => 1
  | .Hearts => 2
  | .Spades => 3

/-- Numeric rank of a value in Rust declaration order (derived `Ord`):
Two = 0 < Three = 1 < ... < Ace = 12. -/
def CardValue.toNat : CardValue → Nat
  | .Two => 0
  | .Three => 1
  | .Four => 2
  | .Five => 3
  | .Six => 4
  | .Seven => 5
  | .Eight => 6
  | .Nine => 7
  | .Ten => 8
  | .Jack => 9
  | .Queen => 10
  | .King => 11
  | .Ace => 12

/-- `struct Card { value, suit }` from game.rs. -/
structure Card where
  value : CardValue
  suit : CardSuit
deriving DecidableEq, Repr

/-- Encoding of the derived lexicographic `Ord` on `Card` (value first,
then suit) into `Nat`; faithful because `CardSuit.toNat < 4`. -/
def Card.key (c : Card) : Nat := c.value.toNat * 4 + c.suit.toNat

/-- The total order Rust derives on `Card` (by `(value, suit)`). -/
def cardLe (a b : Card) : Prop := a.key ≤ b.key

instance : DecidableRel cardLe := fun a b => inferInstanceAs (Decidable (a.key ≤ b.key))

instance : IsTotal Card cardLe := ⟨fun a b => Nat.le_total a.key b.key⟩

instance : IsTrans Card cardLe := ⟨fun _ _ _ hab hbc => Nat.le_trans hab hbc⟩

/-- Model of `Vec::sort_unstable` on a card vector: some sorted permutation
of the input (unstable sort output is the unique sorted permutation here
because `cardLe` is antisymmetric on fully-equal keys up to card equality;
any sort produces this list). -/
def sortCards (l : List Card) : List Card := l.insertionSort cardLe

/-- `const VALUES` from game.rs. -/
def VALUES : List CardValue :=
  [.Two, .Three, .Four, .Five, .Six, .Seven, .Eight, .Nine, .Ten, .Jack, .Queen, .King, .Ace]

/-- `const SUITS` from game.rs. -/
def SUITS : List CardSuit := [.Clubs, .Diamonds, .Hearts, .Spades]

/-- `pub const HAND_SIZE: usize = 6` from game.rs. -/
def HAND_SIZE : Nat := 6

/-- `new_deck` from game.rs: VALUES cycled, truncated to
`num_players * VALUES.len()` cards, zipped against the first `num_players`
suits cycled.  The i-th produced card is therefore
`(VALUES[i % 13], (SUITS.take num_players)[i % num_players])`. -/
def new_deck (num_players : Nat) : List Card :=
  (List.range (num_players * VALUES.length)).map fun i =>
    { value := VALUES.getD (i % VALUES.length) CardValue.Two,
      suit := (SUITS.take num_players).getD (i % (SUITS.take num_players).length) CardSuit.Clubs }

/-- `enum Phase` from game.rs. -/
inductive Phase where
  | Setup
  | Play
deriving DecidableEq, Repr

/-- `enum CardZone` from game.rs. -/
inductive CardZone where
  | Hand
  | FaceUpThree
  | FaceDownThree
deriving DecidableEq, Repr

/-- `struct GameState` from game.rs (the authoritative rules engine).
`last_turn_start : Instant` is omitted (wall-clock time). -/
structure GameState where
  active_player : Nat
  num_players : Nat
  hands : List (List Card)
  face_up_three : List (List Card)
  face_down_three : List (List Card)
  cleared_cards : List Card
  pile_cards : List Card
  cur_phase : Phase
  last_cards_played : List Card
  out_players : List Nat
  last_played_zone : Option CardZone
deriving DecidableEq, Repr

/-- The per-player dealing loop of `GameState::new`: for each player take 3
face-up cards, then 3 face-down cards, then `HAND_SIZE = 6` hand cards from
the (already shuffled) deck iterator.  Returns
(face_up_three, face_down_three, hands). -/
def dealZones : Nat → List Card → List (List Card) × List (List Card) × List (List Card)
  | 0, _ => ([], [], [])
  | k + 1, deck =>
      let fu := deck.take 3
      let fd := ((deck.drop 3).take 3)
      let h := (((deck.drop 3).drop 3).take HAND_SIZE)
      let rest := dealZones k (((deck.drop 3).drop 3).drop HAND_SIZE)
      (fu :: rest.1, fd :: rest.2.1, h :: rest.2.2)

/-- `GameState::new`, parameterized by the post-shuffle deck (the source
shuffles `new_deck num_players` with an ambient RNG; any permutation of the
constructed deck may appear here). -/
def GameState.deal (deck : List Card) (num_players : Nat) : GameState :=
  let z := dealZones num_players deck
  { active_player := 0
    num_players := num_players
    hands := z.2.2
    face_up_three := z.1
    face_down_three := z.2.1
    cleared_cards := []
    pile_cards := []
    cur_phase := Phase.Setup
    last_cards_played := []
    out_players := []
    last_played_zone := none }

/-- `effective_top_card` from game.rs: topmost pile value after skipping a
suffix of Fours; `Two` when nothing remains. -/
def effective_top_card (pile : List Card) : CardValue :=
  ((pile.reverse.map Card.value).dropWhile fun v => decide (v = CardValue.Four)).headD
    CardValue.Two

/-- `is_playable_without_pickup` from game.rs: the playability predicate,
a first-match Rust `match` on `(card_value, effective_top_card pile)`. -/
def is_playable_without_pickup (card_value : CardValue) (pile : List Card) : Bool :=
  match card_value, effective_top_card pile with
  | CardValue.Two, _ => true
  | CardValue.Four, _ => true
  | CardValue.Ten, y => decide (y ≠ CardValue.Seven)
  | x, CardValue.Seven => decide (x.toNat ≤ CardValue.Seven.toNat)
  | x, y => decide (y.toNat ≤ x.toNat)

/-- Replacing every suit in the pile by Clubs (used to state that
playability never depends on suits). -/
def eraseSuits (pile : List Card) : List Card :=
  pile.map fun c => { value := c.value, suit := CardSuit.Clubs }

lemma effective_top_card_eraseSuits (pile : List Card) :
    effective_top_card (eraseSuits pile) = effective_top_card pile := by
  have h : List.map Card.value (eraseSuits pile) = List.map Card.value pile := by
    simp only [eraseSuits, List.map_map]
    rfl
  unfold effective_top_card
  rw [List.map_reverse, List.map_reverse, h]

/-- C1: the rules engine's playability predicate returns true for Two and
Four; for Ten it returns true iff the effective top is not Seven; otherwise
it compares against the effective top with the Seven inversion (rank at
most Seven when the effective top is Seven, rank at least the effective top
otherwise), where the effective top ignores a maximal suffix of Fours and
is Two for an empty (or all-Four) pile.  Moreover the result is unchanged
when every suit in the pile is replaced by Clubs: it depends only on card
values, never on suits. -/
theorem is_playable_characterization (rank : CardValue) (pile : List Card) :
    (is_playable_without_pickup rank pile = true ↔
      (rank = CardValue.Two ∨ rank = CardValue.Four ∨
        (rank = CardValue.Ten ∧ effective_top_card pile ≠ CardValue.Seven) ∨
        (rank ≠ CardValue.Two ∧ rank ≠ CardValue.Four ∧ rank ≠ CardValue.Ten ∧
          ((effective_top_card pile = CardValue.Seven ∧
              rank.toNat ≤ CardValue.Seven.toNat) ∨
            (effective_top_card pile ≠ CardValue.Seven ∧
              (effective_top_card pile).toNat ≤ rank.toNat))))) ∧
    is_playable_without_pickup rank (eraseSuits pile) =
      is_playable_without_pickup rank pile := by
  constructor
  · cases rank <;> cases het : effective_top_card pile <;>
      simp only [is_playable_without_pickup, het] <;> decide
  · unfold is_playable_without_pickup
    rw [effective_top_card_eraseSuits]

/-- The top-of-pile matching count inside `top_n_cards_same` (game.rs):
walking the pile from the top, cards equal to the top value are counted,
Fours are skipped (`continue`), and any other value stops the walk
(`break`).  The argument list is the reversed pile (top first). -/
def top_same_count (top : CardValue) : List Card → Nat
  | [] => 0
  | c :: rest =>
      if c.value = top then top_same_count top rest + 1
      else if c.value = CardValue.Four then top_same_count top rest
      else 0

/-- `top_n_cards_same` from game.rs: false on an empty pile; otherwise the
count of top-value matches (with interleaved Fours skipped) must be
EXACTLY `num_players`. -/
def top_n_cards_same (pile : List Card) (num_players : Nat) : Bool :=
  match pile.getLast? with
  | none => false
  | some c => decide (top_same_count c.value pile.reverse = num_players)

/-- One Rust `while self.out_players.contains(&next_player) { next_player += 1 }`
sweep, fuelled.  The source loop is unbounded; because `out_players` only
ever holds indices below `num_players`, `num_players + 1` steps always
suffice (lemma `skip_out_spec`), so the fuelled version agrees with the
source wherever the source terminates. -/
def skip_out (out : List Nat) : Nat → Nat → Nat
  | 0, p => p
  | fuel + 1, p => if p ∈ out then skip_out out fuel (p + 1) else p

/-- `GameState::next_player` from game.rs: advance past the active player,
skipping out players; wrap `num_players` to 0; skip out players again. -/
def nextPlayerFrom (active num_players : Nat) (out : List Nat) : Nat :=
  let np := skip_out out (num_players + 1) (active + 1)
  let np := if np = num_players then 0 else np
  skip_out out (num_players + 1) np

def GameState.next_player (s : GameState) : Nat :=
  nextPlayerFrom s.active_player s.num_players s.out_players

/-- `GameState::rotate_play` (the `last_turn_start` reset is wall-clock
time, omitted). -/
def GameState.rotate_play (s : GameState) : GameState :=
  { s with active_player := s.next_player }

/-- The hand-rebuilding loop of `choose_three_faceup` (both engines): walk
`all_cards`, removing the first not-yet-removed occurrence of each chosen
card and pushing everything else onto the new hand.  Returns the three
removal flags and the new hand. -/
def remove_three_loop (c1 c2 c3 : Card) (all : List Card) (r1 r2 r3 : Bool) :
    Bool × Bool × Bool × List Card :=
  match all with
  | [] => (r1, r2, r3, [])
  | card :: rest =>
      if card = c1 ∧ r1 = false then remove_three_loop c1 c2 c3 rest true r2 r3
      else if card = c2 ∧ r2 = false then remove_three_loop c1 c2 c3 rest r1 true r3
      else if card = c3 ∧ r3 = false then remove_three_loop c1 c2 c3 rest r1 r2 true
      else
        ((remove_three_loop c1 c2 c3 rest r1 r2 r3).1,
          (remove_three_loop c1 c2 c3 rest r1 r2 r3).2.1,
          (remove_three_loop c1 c2 c3 rest r1 r2 r3).2.2.1,
          card :: (remove_three_loop c1 c2 c3 rest r1 r2 r3).2.2.2)

/-- `GameState::choose_three_faceup` from game.rs.  The combined pool is
Hand ++ FaceUp; if any chosen card could not be removed the call fails with
the state untouched; otherwise FaceUp becomes the sorted chosen triple, the
hand becomes the sorted remainder, play rotates, and reaching player 0
switches the phase to Play. -/
def GameState.choose_three_faceup (s : GameState) (c1 c2 c3 : Card) :
    Except String Unit × GameState :=
  let all_cards := s.hands.getD s.active_player [] ++ s.face_up_three.getD s.active_player []
  let res := remove_three_loop c1 c2 c3 all_cards false false false
  if res.1 = true ∧ res.2.1 = true ∧ res.2.2.1 = true then
    let s1 := { s with
      face_up_three := s.face_up_three.set s.active_player (sortCards [c1, c2, c3]),
      hands := s.hands.set s.active_player (sortCards res.2.2.2) }
    let s2 := s1.rotate_play
    let s3 := if s2.active_player = 0 then { s2 with cur_phase := Phase.Play } else s2
    (Except.ok (), s3)
  else
    (Except.error "Chosen three faceup cards are not in hand / already faceup cards", s)

/-- Result of a play: an `Ok(bool)` (game complete?), an `Err(&str)`, or a
Rust panic (`unwrap` failure). -/
inductive PlayResult where
  | ok (complete : Bool)
  | err (msg : String)
  | panicked
deriving DecidableEq, Repr

/-- The per-card validation loop of `make_play` (game.rs): each card must
match the play value, and for Hand/FaceUp plays must be found in the
corresponding (sorted) zone by `binary_search` — membership, for a sorted
vector.  Returns the first error, if any. -/
def check_play_cards (play_value : CardValue) (zone : CardZone) (hand fup : List Card) :
    List Card → Option String
  | [] => none
  | card :: rest =>
      if card.value ≠ play_value then
        some "Can only play multiple cards if each card has the same value"
      else
        match zone with
        | CardZone.Hand =>
            if card ∈ hand then check_play_cards play_value zone hand fup rest
            else some "can only play cards that you have"
        | CardZone.FaceUpThree =>
            if card ∈ fup then check_play_cards play_value zone hand fup rest
            else some "can only play cards that you have"
        | CardZone.FaceDownThree => check_play_cards play_value zone hand fup rest

/-- The removal loop of `make_play`: for each played card,
`binary_search(card).unwrap()` then `remove(i)` — on a sorted vector this
removes one occurrence of the card (all occurrences of a fully-equal card
are identical, so which index is found is immaterial), and panics (`none`)
if the card is absent (possible when the play repeats a card more often
than it is held). -/
def remove_cards (zone_list : List Card) : List Card → Option (List Card)
  | [] => some zone_list
  | card :: rest =>
      if card ∈ zone_list then remove_cards (zone_list.erase card) rest else none

/-- Tail of `make_play` after `player_out` is decided (game.rs lines
322-331): the clear trigger `(is_playable && play_value == Ten) ||
top_n_cards_same`, moving the pile into the cleared cards, with rotation
exactly when the clear did not fire or the player just went out. -/
def make_play_after (s : GameState) (player_out is_playable : Bool) (play_value : CardValue) :
    PlayResult × GameState :=
  if (is_playable = true ∧ play_value = CardValue.Ten) ∨
      top_n_cards_same s.pile_cards s.num_players = true then
    let s := { s with cleared_cards := s.cleared_cards ++ s.pile_cards, pile_cards := [] }
    if player_out then (PlayResult.ok false, s.rotate_play) else (PlayResult.ok false, s)
  else
    (PlayResult.ok false, s.rotate_play)

/-- Middle of `make_play` (game.rs lines 293-320): record the played zone,
compute playability against the pre-play pile, push the cards onto the
pile, record the last play; then either pick the pile up (unplayable), or
mark the player out (all zones empty; completing the game when
`out_players` reaches `num_players - 1`, appending the next player and
returning immediately), or neither. -/
def make_play_finish (s0 : GameState) (zone : CardZone) (cards : List Card) :
    PlayResult × GameState :=
  let ap := s0.active_player
  let play_value := (cards.headD { value := CardValue.Two, suit := CardSuit.Clubs }).value
  let s1 := { s0 with last_played_zone := some zone }
  let is_playable := is_playable_without_pickup play_value s1.pile_cards
  let s2 := { s1 with pile_cards := s1.pile_cards ++ cards, last_cards_played := cards }
  if is_playable = false then
    let newhand := sortCards (s2.hands.getD ap [] ++ s2.pile_cards)
    let s3 := { s2 with hands := s2.hands.set ap newhand, pile_cards := [] }
    make_play_after s3 false is_playable play_value
  else if s2.hands.getD ap [] = [] ∧ s2.face_up_three.getD ap [] = [] ∧
      s2.face_down_three.getD ap [] = [] then
    let s3 := { s2 with out_players := s2.out_players ++ [ap] }
    if s3.out_players.length = s3.num_players - 1 then
      (PlayResult.ok true, { s3 with out_players := s3.out_players ++ [s3.next_player] })
    else
      make_play_after s3 true is_playable play_value
  else
    make_play_after s2 false is_playable play_value

/-- Validation and removal section of `make_play` (game.rs lines 240-291),
entered with the zone already selected (and the face-down card already
popped, exactly as in the source). -/
def make_play_checked (s : GameState) (zone : CardZone) (cards : List Card) :
    PlayResult × GameState :=
  if cards = [] then (PlayResult.err "Have to play at least one card", s)
  else
    let ap := s.active_player
    let hand := s.hands.getD ap []
    let fup := s.face_up_three.getD ap []
    let play_value := (cards.headD { value := CardValue.Two, suit := CardSuit.Clubs }).value
    match check_play_cards play_value zone hand fup cards with
    | some msg => (PlayResult.err msg, s)
    | none =>
        match zone with
        | CardZone.Hand =>
            match remove_cards hand cards with
            | none => (PlayResult.panicked, s)
            | some h2 => make_play_finish { s with hands := s.hands.set ap h2 } zone cards
        | CardZone.FaceUpThree =>
            match remove_cards fup cards with
            | none => (PlayResult.panicked, s)
            | some f2 =>
                make_play_finish { s with face_up_three := s.face_up_three.set ap f2 } zone cards
        | CardZone.FaceDownThree => make_play_finish s zone cards

/-- `GameState::make_play` from game.rs.  Zone selection: Hand when
non-empty, else FaceUp when non-empty, else FaceDown — in which case the
caller must pass no cards and the top face-down card is popped immediately
(the source pops before the remaining checks, which can no longer fail);
popping an empty face-down pile is an `unwrap` panic. -/
def GameState.make_play (s : GameState) (cards : List Card) : PlayResult × GameState :=
  let ap := s.active_player
  let hand := s.hands.getD ap []
  let fup := s.face_up_three.getD ap []
  let fdown := s.face_down_three.getD ap []
  if hand.length > 0 then
    if cards.length > hand.length then
      (PlayResult.err "Can\x27t play more cards than you have", s)
    else make_play_checked s CardZone.Hand cards
  else if fup.length > 0 then
    if cards.length > fup.length then
      (PlayResult.err "Can\x27t play more cards than you have", s)
    else make_play_checked s CardZone.FaceUpThree cards
  else
    if cards.length ≠ 0 then
      (PlayResult.err "Can\x27t choose any cards when playing from the face down three", s)
    else
      match fdown.getLast? with
      | none => (PlayResult.panicked, s)
      | some c =>
          make_play_checked
            { s with face_down_three := s.face_down_three.set ap fdown.dropLast }
            CardZone.FaceDownThree [c]

/-- `GameState::take_turn` from game.rs: dispatch on the phase; during
Setup exactly three cards must be chosen. -/
def GameState.take_turn (s : GameState) (cards : List Card) : PlayResult × GameState :=
  match s.cur_phase with
  | Phase.Setup =>
      match cards with
      | [c1, c2, c3] =>
          match s.choose_three_faceup c1 c2 c3 with
          | (Except.ok _, s1) => (PlayResult.ok false, s1)
          | (Except.error m, s1) => (PlayResult.err m, s1)
      | _ => (PlayResult.err "During setup, must choose exactly three cards", s)
  | Phase.Play => s.make_play cards

/-! ### List and multiset helper lemmas -/

lemma getD_set_self {α : Type} (l : List α) (i : Nat) (x d : α) (h : i < l.length) :
    (l.set i x).getD i d = x := by
  induction l generalizing i with
  | nil => simp at h
  | cons a t ih =>
      cases i with
      | zero => simp [List.set, List.getD]
      | succ j =>
          simp only [List.set, List.getD_cons_succ]
          exact ih j (by simpa using h)

lemma getD_set_ne {α : Type} (l : List α) (i j : Nat) (x d : α) (h : i ≠ j) :
    (l.set i x).getD j d = l.getD j d := by
  induction l generalizing i j with
  | nil => simp [List.set]
  | cons a t ih =>
      cases i with
      | zero =>
          cases j with
          | zero => exact absurd rfl h
          | succ m => simp [List.set]
      | succ k =>
          cases j with
          | zero => simp [List.set]
          | succ m =>
              simp only [List.set, List.getD_cons_succ]
              exact ih k m (fun hh => h (by rw [hh]))

lemma sortCards_sorted (l : List Card) : List.Sorted cardLe (sortCards l) :=
  List.sorted_insertionSort cardLe l

lemma sortCards_perm (l : List Card) : List.Perm (sortCards l) l :=
  List.perm_insertionSort cardLe l

lemma sortCards_coe (l : List Card) : (sortCards l : Multiset Card) = (l : Multiset Card) :=
  Multiset.coe_eq_coe.mpr (sortCards_perm l)

lemma coe_cons_eq (a : Card) (l : List Card) :
    ((a :: l : List Card) : Multiset Card) = {a} + (l : Multiset Card) := by
  rw [← Multiset.cons_coe, ← Multiset.singleton_add]

lemma sortCards_length (l : List Card) : (sortCards l).length = l.length :=
  (sortCards_perm l).length_eq

lemma sorted_erase {l : List Card} (a : Card) (h : List.Sorted cardLe l) :
    List.Sorted cardLe (l.erase a) :=
  List.Pairwise.sublist (List.erase_sublist a l) h

/-- Sum of the card multisets of a list of zones. -/
def listMS (ls : List (List Card)) : Multiset Card :=
  (ls.map fun l => (l : Multiset Card)).sum

lemma listMS_nil : listMS [] = 0 := rfl

lemma listMS_cons (l : List Card) (ls : List (List Card)) :
    listMS (l :: ls) = (l : Multiset Card) + listMS ls := by
  simp [listMS]

lemma listMS_set (ls : List (List Card)) (i : Nat) (x : List Card) (h : i < ls.length) :
    listMS (ls.set i x) + (ls.getD i [] : Multiset Card) =
      listMS ls + (x : Multiset Card) := by
  induction ls generalizing i with
  | nil => simp at h
  | cons a t ih =>
      cases i with
      | zero =>
          simp only [List.set, listMS_cons, List.getD_cons_zero]
          abel
      | succ j =>
          simp only [List.set, listMS_cons, List.getD_cons_succ]
          have hj := ih j (by simpa using h)
          calc (a : Multiset Card) + listMS (t.set j x) + (t.getD j [] : Multiset Card)
              = (a : Multiset Card) + (listMS (t.set j x) + (t.getD j [] : Multiset Card)) := by
                abel
            _ = (a : Multiset Card) + (listMS t + (x : Multiset Card)) := by rw [hj]
            _ = (a : Multiset Card) + listMS t + (x : Multiset Card) := by abel

lemma remove_cards_multiset :
    ∀ (cards zone z' : List Card), remove_cards zone cards = some z' →
      (z' : Multiset Card) + (cards : Multiset Card) = (zone : Multiset Card)
  | [], zone, z', h => by
      simp only [remove_cards, Option.some_inj] at h
      subst h
      simp
  | card :: rest, zone, z', h => by
      simp only [remove_cards] at h
      split at h
      case isTrue hmem =>
          have ih := remove_cards_multiset rest (zone.erase card) z' h
          have hperm : (zone : Multiset Card) = {card} + (zone.erase card : Multiset Card) := by
            rw [← coe_cons_eq]
            exact Multiset.coe_eq_coe.mpr (List.perm_cons_erase hmem)
          rw [coe_cons_eq, hperm, ← ih]
          abel
      case isFalse hmem => exact absurd h (by simp)

lemma remove_cards_sorted :
    ∀ (cards zone z' : List Card), remove_cards zone cards = some z' →
      List.Sorted cardLe zone → List.Sorted cardLe z'
  | [], zone, z', h, hs => by
      simp only [remove_cards, Option.some_inj] at h
      subst h; exact hs
  | card :: rest, zone, z', h, hs => by
      simp only [remove_cards] at h
      split at h
      case isTrue hmem => exact remove_cards_sorted rest _ z' h (sorted_erase card hs)
      case isFalse hmem => exact absurd h (by simp)

lemma remove_cards_length (cards zone z' : List Card) (h : remove_cards zone cards = some z') :
    z'.length + cards.length = zone.length := by
  have := congrArg Multiset.card (remove_cards_multiset cards zone z' h)
  simpa using this

/-- Multiset contribution of one removal flag. -/
def flagMS (b : Bool) (c : Card) : Multiset Card := if b then {c} else 0

lemma flagMS_true (c : Card) : flagMS true c = {c} := rfl

lemma flagMS_false (c : Card) : flagMS false c = 0 := rfl

lemma remove_three_loop_multiset (c1 c2 c3 : Card) :
    ∀ (all : List Card) (r1 r2 r3 : Bool),
      ((remove_three_loop c1 c2 c3 all r1 r2 r3).2.2.2 : Multiset Card) +
          flagMS (remove_three_loop c1 c2 c3 all r1 r2 r3).1 c1 +
          flagMS (remove_three_loop c1 c2 c3 all r1 r2 r3).2.1 c2 +
          flagMS (remove_three_loop c1 c2 c3 all r1 r2 r3).2.2.1 c3 =
        (all : Multiset Card) + flagMS r1 c1 + flagMS r2 c2 + flagMS r3 c3
  | [], r1, r2, r3 => by simp [remove_three_loop]
  | card :: rest, r1, r2, r3 => by
      simp only [remove_three_loop]
      split
      case isTrue h1 =>
          have ih := remove_three_loop_multiset c1 c2 c3 rest true r2 r3
          rw [ih]
          obtain ⟨hc, hr⟩ := h1
          subst hc hr
          simp only [flagMS, if_true, if_false, coe_cons_eq]
          abel
      case isFalse h1 =>
          split
          case isTrue h2 =>
              have ih := remove_three_loop_multiset c1 c2 c3 rest r1 true r3
              rw [ih]
              obtain ⟨hc, hr⟩ := h2
              subst hc hr
              simp only [flagMS, if_true, if_false, coe_cons_eq]
              abel
          case isFalse h2 =>
              split
              case isTrue h3 =>
                  have ih := remove_three_loop_multiset c1 c2 c3 rest r1 r2 true
                  rw [ih]
                  obtain ⟨hc, hr⟩ := h3
                  subst hc hr
                  simp only [flagMS, if_true, if_false, coe_cons_eq]
                  abel
              case isFalse h3 =>
                  have ih := remove_three_loop_multiset c1 c2 c3 rest r1 r2 r3
                  simp only [coe_cons_eq]
                  simpa only [add_assoc] using
                    congrArg (fun m => ({card} : Multiset Card) + m) ih

/-! ### Rotation loop characterization -/

lemma skip_out_not_mem (out : List Nat) (fuel p : Nat) (h : p ∉ out) :
    skip_out out (fuel + 1) p = p := by
  simp [skip_out, h]

lemma skip_out_spec (out : List Nat) (n : Nat) (hout : ∀ q ∈ out, q < n) :
    ∀ (fuel p : Nat), n < p + fuel →
      skip_out out fuel p ∉ out ∧ p ≤ skip_out out fuel p ∧
        ∀ j, p ≤ j → j < skip_out out fuel p → j ∈ out
  | 0, p, hf => by
      simp only [skip_out]
      refine ⟨fun hmem => ?_, Nat.le_refl p, fun j hj1 hj2 => absurd hj2 (Nat.not_lt.mpr hj1)⟩
      have := hout p hmem
      omega
  | fuel + 1, p, hf => by
      simp only [skip_out]
      by_cases hp : p ∈ out
      · rw [if_pos hp]
        have hrec := skip_out_spec out n hout fuel (p + 1) (by omega)
        refine ⟨hrec.1, by omega, fun j hj1 hj2 => ?_⟩
        rcases Nat.eq_or_lt_of_le hj1 with heq | hlt
        · rw [← heq]; exact hp
        · exact hrec.2.2 j hlt hj2
      · rw [if_neg hp]
        exact ⟨hp, Nat.le_refl p, fun j hj1 hj2 => absurd hj2 (Nat.not_lt.mpr hj1)⟩

/-- `next_player` is exactly: the next turn index modulo `num_players`,
skipping every member of `out_players`. -/
lemma nextPlayerFrom_spec (active n : Nat) (out : List Nat)
    (hact : active < n) (hout : ∀ q ∈ out, q < n)
    (j0 : Nat) (hj0n : j0 < n) (hj0 : j0 ∉ out) :
    nextPlayerFrom active n out < n ∧ nextPlayerFrom active n out ∉ out ∧
      ∃ k, 1 ≤ k ∧ k ≤ n ∧ nextPlayerFrom active n out = (active + k) % n ∧
        ∀ j, 1 ≤ j → j < k → (active + j) % n ∈ out := by
  obtain ⟨h1not, h1ge, h1least⟩ := skip_out_spec out n hout (n + 1) (active + 1) (by omega)
  have hr1le : skip_out out (n + 1) (active + 1) ≤ n := by
    by_contra hgt
    push_neg at hgt
    have := hout n (h1least n (by omega) hgt)
    omega
  rcases Nat.lt_or_ge (skip_out out (n + 1) (active + 1)) n with hlt | hge2
  · have hres : nextPlayerFrom active n out = skip_out out (n + 1) (active + 1) := by
      simp only [nextPlayerFrom]
      rw [if_neg (Nat.ne_of_lt hlt)]
      exact skip_out_not_mem out n _ h1not
    rw [hres]
    refine ⟨hlt, h1not, skip_out out (n + 1) (active + 1) - active, by omega, by omega, ?_, ?_⟩
    · rw [show active + (skip_out out (n + 1) (active + 1) - active) =
          skip_out out (n + 1) (active + 1) from by omega]
      rw [Nat.mod_eq_of_lt hlt]
    · intro j hj1 hjk
      rw [Nat.mod_eq_of_lt (by omega)]
      exact h1least _ (by omega) (by omega)
  · have heq : skip_out out (n + 1) (active + 1) = n := Nat.le_antisymm hr1le hge2
    obtain ⟨h2not, _, h2least⟩ := skip_out_spec out n hout (n + 1) 0 (by omega)
    have hr2lt : skip_out out (n + 1) 0 < n := by
      by_contra hh
      push_neg at hh
      exact hj0 (h2least j0 (Nat.zero_le _) (Nat.lt_of_lt_of_le hj0n hh))
    have hr2act : skip_out out (n + 1) 0 ≤ active := by
      by_contra hh
      push_neg at hh
      exact h2not (h1least _ (by omega) (by omega))
    have hres : nextPlayerFrom active n out = skip_out out (n + 1) 0 := by
      simp only [nextPlayerFrom]
      rw [heq, if_pos rfl]
    rw [hres]
    refine ⟨hr2lt, h2not, n - active + skip_out out (n + 1) 0, by omega, by omega, ?_, ?_⟩
    · rw [show active + (n - active + skip_out out (n + 1) 0) =
          n + skip_out out (n + 1) 0 from by omega]
      rw [Nat.add_mod_left]
      exact (Nat.mod_eq_of_lt hr2lt).symm
    · intro j hj1 hjk
      rcases Nat.lt_or_ge j (n - active) with hsmall | hbig
      · rw [Nat.mod_eq_of_lt (by omega)]
        exact h1least _ (by omega) (by omega)
      · have hmod : (active + j) % n = active + j - n := by
          rw [Nat.mod_eq_sub_mod (by omega), Nat.mod_eq_of_lt (by omega)]
        rw [hmod]
        exact h2least _ (Nat.zero_le _) (by omega)

/-! ### Card conservation infrastructure -/

/-- The multiset union of all card zones: every hand, every face-up set,
every face-down set, the pile, and the cleared cards. -/
def zonesMultiset (s : GameState) : Multiset Card :=
  listMS s.hands + listMS s.face_up_three + listMS s.face_down_three +
    (s.pile_cards : Multiset Card) + (s.cleared_cards : Multiset Card)

lemma lms_set (ls : List (List Card)) (i : Nat) (x : List Card) (h : i < ls.length) :
    listMS (ls.set i x) = (x : Multiset Card) + listMS (ls.set i []) := by
  induction ls generalizing i with
  | nil => simp at h
  | cons a t ih =>
      cases i with
      | zero => simp [List.set, listMS_cons]
      | succ j =>
          simp only [List.set, listMS_cons, ih j (by simpa using h)]
          abel

lemma listMS_extract (ls : List (List Card)) (i : Nat) (h : i < ls.length) :
    listMS ls = (ls.getD i [] : Multiset Card) + listMS (ls.set i []) := by
  induction ls generalizing i with
  | nil => simp at h
  | cons a t ih =>
      cases i with
      | zero => simp [List.set, listMS_cons]
      | succ j =>
          simp only [List.set, listMS_cons, List.getD_cons_succ]
          rw [ih j (by simpa using h)]
          abel

lemma make_play_after_conserve (s : GameState) (po ip : Bool) (pv : CardValue) :
    zonesMultiset (make_play_after s po ip pv).2 = zonesMultiset s := by
  unfold make_play_after
  by_cases hcl : (ip = true ∧ pv = CardValue.Ten) ∨
      top_n_cards_same s.pile_cards s.num_players = true
  · rw [if_pos hcl]
    by_cases hpo : po
    · rw [if_pos hpo]
      simp only [zonesMultiset, GameState.rotate_play]
      rw [← Multiset.coe_add]
      simp only [Multiset.coe_nil]
      abel
    · rw [if_neg hpo]
      simp only [zonesMultiset]
      rw [← Multiset.coe_add]
      simp only [Multiset.coe_nil]
      abel
  · rw [if_neg hcl]
    simp only [zonesMultiset, GameState.rotate_play]

lemma make_play_finish_conserve (s : GameState) (zone : CardZone) (cards : List Card)
    (hap : s.active_player < s.hands.length) :
    zonesMultiset (make_play_finish s zone cards).2 =
      zonesMultiset s + (cards : Multiset Card) := by
  simp only [make_play_finish]
  split
  · -- pickup branch
    rw [make_play_after_conserve]
    simp only [zonesMultiset]
    rw [lms_set _ _ _ (by simpa using hap), listMS_extract s.hands s.active_player hap,
      sortCards_coe]
    rw [← Multiset.coe_add, ← Multiset.coe_add]
    simp only [Multiset.coe_nil]
    abel
  · -- playable: split on the all-zones-empty (player out) check
    split
    · -- player out: split on the game-complete check
      split
      · -- game complete: out_players extended, zones untouched beyond the pile push
        simp only [zonesMultiset]
        rw [← Multiset.coe_add]
        abel
      · rw [make_play_after_conserve]
        simp only [zonesMultiset]
        rw [← Multiset.coe_add]
        abel
    · -- ordinary playable branch
      rw [make_play_after_conserve]
      simp only [zonesMultiset]
      rw [← Multiset.coe_add]
      abel

lemma coe_append (l1 l2 : List Card) :
    ((l1 ++ l2 : List Card) : Multiset Card) = (l1 : Multiset Card) + (l2 : Multiset Card) :=
  (Multiset.coe_add l1 l2).symm

lemma make_play_checked_conserve_nd (s : GameState) (zone : CardZone) (cards : List Card)
    (b : Bool) (s' : GameState)
    (hzone : zone ≠ CardZone.FaceDownThree)
    (hH : s.active_player < s.hands.length)
    (hF : s.active_player < s.face_up_three.length)
    (h : make_play_checked s zone cards = (PlayResult.ok b, s')) :
    zonesMultiset s' = zonesMultiset s := by
  simp only [make_play_checked] at h
  split at h
  · simp at h
  · split at h
    · simp at h
    · split at h
      · -- Hand zone
        rename_i heq
        split at h
        · simp at h
        · rename_i h2 hrem
          have hs' : s' = (make_play_finish
              { s with hands := s.hands.set s.active_player h2 } CardZone.Hand cards).2 :=
            (congrArg Prod.snd h).symm
          rw [hs', make_play_finish_conserve _ _ _ (by simpa using hH)]
          have hm := remove_cards_multiset cards (s.hands.getD s.active_player []) h2 hrem
          simp only [zonesMultiset]
          rw [lms_set _ _ _ hH, listMS_extract s.hands s.active_player hH, ← hm]
          abel
      · -- FaceUp zone
        rename_i heq
        split at h
        · simp at h
        · rename_i f2 hrem
          have hs' : s' = (make_play_finish
              { s with face_up_three := s.face_up_three.set s.active_player f2 }
              CardZone.FaceUpThree cards).2 :=
            (congrArg Prod.snd h).symm
          rw [hs', make_play_finish_conserve _ _ _ (by simpa using hH)]
          have hm := remove_cards_multiset cards (s.face_up_three.getD s.active_player []) f2 hrem
          simp only [zonesMultiset]
          rw [lms_set _ _ _ hF, listMS_extract s.face_up_three s.active_player hF, ← hm]
          abel
      · exact absurd rfl hzone

lemma make_play_checked_conserve_fd (s : GameState) (cards : List Card)
    (b : Bool) (s' : GameState)
    (hH : s.active_player < s.hands.length)
    (h : make_play_checked s CardZone.FaceDownThree cards = (PlayResult.ok b, s')) :
    zonesMultiset s' = zonesMultiset s + (cards : Multiset Card) := by
  simp only [make_play_checked] at h
  split at h
  · simp at h
  · split at h
    · simp at h
    · have hs' : s' = (make_play_finish s CardZone.FaceDownThree cards).2 :=
        (congrArg Prod.snd h).symm
      rw [hs', make_play_finish_conserve _ _ _ hH]

lemma make_play_conserve (s : GameState) (cards : List Card) (b : Bool) (s' : GameState)
    (hH : s.active_player < s.hands.length)
    (hF : s.active_player < s.face_up_three.length)
    (hD : s.active_player < s.face_down_three.length)
    (h : s.make_play cards = (PlayResult.ok b, s')) :
    zonesMultiset s' = zonesMultiset s := by
  simp only [GameState.make_play] at h
  split at h
  · split at h
    · simp at h
    · exact make_play_checked_conserve_nd s CardZone.Hand cards b s' (by simp) hH hF h
  · split at h
    · split at h
      · simp at h
      · exact make_play_checked_conserve_nd s CardZone.FaceUpThree cards b s' (by simp) hH hF h
    · split at h
      · simp at h
      · split at h
        · simp at h
        · rename_i c hlast
          generalize hdl : (s.face_down_three.getD s.active_player []).dropLast = dl at h
          have hfd := make_play_checked_conserve_fd
            ({ s with face_down_three := s.face_down_three.set s.active_player dl })
            [c] b s' (by simpa using hH) h
          subst hdl
          obtain ⟨ys, hys⟩ := List.getLast?_eq_some_iff.mp hlast
          rw [hfd]
          simp only [zonesMultiset]
          rw [lms_set _ _ _ hD, listMS_extract s.face_down_three s.active_player hD, hys,
            List.dropLast_concat, coe_append]
          abel

lemma choose_three_faceup_conserve (s : GameState) (c1 c2 c3 : Card) (u : Unit) (s' : GameState)
    (hH : s.active_player < s.hands.length)
    (hF : s.active_player < s.face_up_three.length)
    (h : s.choose_three_faceup c1 c2 c3 = (Except.ok u, s')) :
    zonesMultiset s' = zonesMultiset s := by
  simp only [GameState.choose_three_faceup] at h
  split at h
  case isTrue hflags =>
    have hs' : s' = (if (({ s with
        face_up_three := s.face_up_three.set s.active_player (sortCards [c1, c2, c3]),
        hands := s.hands.set s.active_player (sortCards
          (remove_three_loop c1 c2 c3
            (s.hands.getD s.active_player [] ++ s.face_up_three.getD s.active_player [])
            false false false).2.2.2) } : GameState).rotate_play).active_player = 0 then
        { ({ s with
          face_up_three := s.face_up_three.set s.active_player (sortCards [c1, c2, c3]),
          hands := s.hands.set s.active_player (sortCards
            (remove_three_loop c1 c2 c3
              (s.hands.getD s.active_player [] ++ s.face_up_three.getD s.active_player [])
              false false false).2.2.2) } : GameState).rotate_play with
          cur_phase := Phase.Play }
      else ({ s with
        face_up_three := s.face_up_three.set s.active_player (sortCards [c1, c2, c3]),
        hands := s.hands.set s.active_player (sortCards
          (remove_three_loop c1 c2 c3
            (s.hands.getD s.active_player [] ++ s.face_up_three.getD s.active_player [])
            false false false).2.2.2) } : GameState).rotate_play) :=
      (congrArg Prod.snd h).symm
    have hm := remove_three_loop_multiset c1 c2 c3
      (s.hands.getD s.active_player [] ++ s.face_up_three.getD s.active_player [])
      false false false
    rw [hflags.1, hflags.2.1, hflags.2.2] at hm
    simp only [flagMS_true, flagMS_false, add_zero] at hm
    have hsum : (s.hands.getD s.active_player [] : Multiset Card) +
        (s.face_up_three.getD s.active_player [] : Multiset Card) =
        ((remove_three_loop c1 c2 c3
          (s.hands.getD s.active_player [] ++ s.face_up_three.getD s.active_player [])
          false false false).2.2.2 : Multiset Card) +
          (([c1, c2, c3] : List Card) : Multiset Card) := by
      rw [← coe_append, ← hm]
      simp only [coe_cons_eq, Multiset.coe_nil]
      abel
    have hzones : ∀ t : GameState,
        t.hands = s.hands.set s.active_player (sortCards
          (remove_three_loop c1 c2 c3
            (s.hands.getD s.active_player [] ++ s.face_up_three.getD s.active_player [])
            false false false).2.2.2) →
        t.face_up_three = s.face_up_three.set s.active_player (sortCards [c1, c2, c3]) →
        t.face_down_three = s.face_down_three →
        t.pile_cards = s.pile_cards → t.cleared_cards = s.cleared_cards →
        zonesMultiset t = zonesMultiset s := by
      intro t ht1 ht2 ht3 ht4 ht5
      simp only [zonesMultiset, ht1, ht2, ht3, ht4, ht5]
      rw [lms_set _ _ _ hH, lms_set _ _ _ hF, listMS_extract s.hands s.active_player hH,
        listMS_extract s.face_up_three s.active_player hF, sortCards_coe, sortCards_coe]
      calc ((remove_three_loop c1 c2 c3
            (s.hands.getD s.active_player [] ++ s.face_up_three.getD s.active_player [])
            false false false).2.2.2 : Multiset Card) +
            listMS (s.hands.set s.active_player []) +
            ((([c1, c2, c3] : List Card) : Multiset Card) +
              listMS (s.face_up_three.set s.active_player [])) +
            listMS s.face_down_three + (s.pile_cards : Multiset Card) +
            (s.cleared_cards : Multiset Card)
          = (((remove_three_loop c1 c2 c3
              (s.hands.getD s.active_player [] ++ s.face_up_three.getD s.active_player [])
              false false false).2.2.2 : Multiset Card) +
              (([c1, c2, c3] : List Card) : Multiset Card)) +
            (listMS (s.hands.set s.active_player []) +
              listMS (s.face_up_three.set s.active_player []) +
              listMS s.face_down_three + (s.pile_cards : Multiset Card) +
              (s.cleared_cards : Multiset Card)) := by abel
        _ = ((s.hands.getD s.active_player [] : Multiset Card) +
              (s.face_up_three.getD s.active_player [] : Multiset Card)) +
            (listMS (s.hands.set s.active_player []) +
              listMS (s.face_up_three.set s.active_player []) +
              listMS s.face_down_three + (s.pile_cards : Multiset Card) +
              (s.cleared_cards : Multiset Card)) := by rw [hsum]
        _ = (s.hands.getD s.active_player [] : Multiset Card) +
              listMS (s.hands.set s.active_player []) +
            ((s.face_up_three.getD s.active_player [] : Multiset Card) +
              listMS (s.face_up_three.set s.active_player [])) +
            listMS s.face_down_three + (s.pile_cards : Multiset Card) +
            (s.cleared_cards : Multiset Card) := by abel
    rw [hs']
    split
    · exact hzones _ rfl rfl rfl rfl rfl
    · exact hzones _ rfl rfl rfl rfl rfl
  case isFalse hflags => simp at h

/-- Every successful `take_turn` (setup or play, any branch) preserves the
multiset union of all card zones. -/
lemma take_turn_conserve (s : GameState) (cards : List Card) (b : Bool) (s' : GameState)
    (hH : s.active_player < s.hands.length)
    (hF : s.active_player < s.face_up_three.length)
    (hD : s.active_player < s.face_down_three.length)
    (h : s.take_turn cards = (PlayResult.ok b, s')) :
    zonesMultiset s' = zonesMultiset s := by
  simp only [GameState.take_turn] at h
  split at h
  · -- Setup
    split at h
    · rename_i c1 c2 c3
      split at h
      · rename_i u s1 hchoose
        have : s1 = s' := congrArg Prod.snd h
        rw [← this]
        exact choose_three_faceup_conserve s c1 c2 c3 u s1 hH hF hchoose
      · simp at h
    · simp at h
  · -- Play
    exact make_play_conserve s cards b s' hH hF hD h

/-! ### Behavioral characterization of the make_play stages -/

/-- Default card used only to spell out `cards[0]` on a nonempty list. -/
def defaultCard : Card := { value := CardValue.Two, suit := CardSuit.Clubs }

lemma make_play_after_spec (t : GameState) (po ip : Bool) (pv : CardValue) :
    (make_play_after t po ip pv).1 = PlayResult.ok false ∧
    (make_play_after t po ip pv).2.num_players = t.num_players ∧
    (make_play_after t po ip pv).2.hands = t.hands ∧
    (make_play_after t po ip pv).2.face_up_three = t.face_up_three ∧
    (make_play_after t po ip pv).2.face_down_three = t.face_down_three ∧
    (make_play_after t po ip pv).2.out_players = t.out_players ∧
    (make_play_after t po ip pv).2.cur_phase = t.cur_phase ∧
    (make_play_after t po ip pv).2.last_cards_played = t.last_cards_played ∧
    (make_play_after t po ip pv).2.last_played_zone = t.last_played_zone ∧
    (if (ip = true ∧ pv = CardValue.Ten) ∨ top_n_cards_same t.pile_cards t.num_players = true
      then (make_play_after t po ip pv).2.pile_cards = [] ∧
        (make_play_after t po ip pv).2.cleared_cards = t.cleared_cards ++ t.pile_cards ∧
        (if po then (make_play_after t po ip pv).2.active_player =
            nextPlayerFrom t.active_player t.num_players t.out_players
          else (make_play_after t po ip pv).2.active_player = t.active_player)
      else (make_play_after t po ip pv).2.pile_cards = t.pile_cards ∧
        (make_play_after t po ip pv).2.cleared_cards = t.cleared_cards ∧
        (make_play_after t po ip pv).2.active_player =
          nextPlayerFrom t.active_player t.num_players t.out_players) := by
  unfold make_play_after
  by_cases hcl : (ip = true ∧ pv = CardValue.Ten) ∨
      top_n_cards_same t.pile_cards t.num_players = true
  · rw [if_pos hcl]
    by_cases hpo : po = true
    · simp [hpo, if_pos hcl, GameState.rotate_play, GameState.next_player]
    · simp only [Bool.not_eq_true] at hpo
      simp [hpo, if_pos hcl]
  · rw [if_neg hcl]
    simp [if_neg hcl, GameState.rotate_play, GameState.next_player]

/-- The clear trigger of `make_play`, phrased over the pre-play state: the
play was playable and either it was a Ten or the post-play pile passes the
top-N-same test.  (When the play is not playable the pile is picked up
before the trigger is evaluated, so the trigger never fires.) -/
def clearCondition (t : GameState) (cards : List Card) : Prop :=
  is_playable_without_pickup (cards.headD defaultCard).value t.pile_cards = true ∧
    ((cards.headD defaultCard).value = CardValue.Ten ∨
      top_n_cards_same (t.pile_cards ++ cards) t.num_players = true)

lemma cleared_ne_append (cl : List Card) (pa : List Card) (hpa : pa ≠ []) :
    cl ≠ cl ++ pa := by
  intro hcontra
  have := congrArg List.length hcontra
  simp only [List.length_append] at this
  have : pa.length = 0 := by omega
  exact hpa (List.length_eq_zero.mp this)

lemma make_play_finish_ok_false_spec (t : GameState) (zone : CardZone) (cards : List Card)
    (s' : GameState) (hcards : cards ≠ [])
    (h : make_play_finish t zone cards = (PlayResult.ok false, s')) :
    s'.num_players = t.num_players ∧
    s'.face_up_three = t.face_up_three ∧
    s'.face_down_three = t.face_down_three ∧
    s'.cur_phase = t.cur_phase ∧
    s'.last_cards_played = cards ∧
    s'.last_played_zone = some zone ∧
    ((s'.pile_cards = [] ∧
        s'.cleared_cards = t.cleared_cards ++ (t.pile_cards ++ cards)) ↔
      clearCondition t cards) ∧
    (clearCondition t cards →
      (s'.out_players = t.out_players ∧ s'.active_player = t.active_player) ∨
      (s'.out_players = t.out_players ++ [t.active_player] ∧
        s'.active_player = nextPlayerFrom t.active_player t.num_players s'.out_players)) ∧
    (¬clearCondition t cards →
      (s'.out_players = t.out_players ∨
        s'.out_players = t.out_players ++ [t.active_player]) ∧
      s'.active_player = nextPlayerFrom t.active_player t.num_players s'.out_players) ∧
    (is_playable_without_pickup (cards.headD defaultCard).value t.pile_cards = false →
      s'.hands = t.hands.set t.active_player
        (sortCards (t.hands.getD t.active_player [] ++ (t.pile_cards ++ cards))) ∧
      s'.out_players = t.out_players ∧ s'.cleared_cards = t.cleared_cards ∧
      s'.pile_cards = []) ∧
    (is_playable_without_pickup (cards.headD defaultCard).value t.pile_cards = true →
      s'.hands = t.hands) := by
  have hpane : (t.pile_cards ++ cards) ≠ [] := by simp [hcards]
  simp only [clearCondition, defaultCard]
  simp only [make_play_finish] at h
  split at h
  case isTrue hplay =>
    have hspec := make_play_after_spec
      ({ t with
        hands := t.hands.set t.active_player
          (sortCards (t.hands.getD t.active_player [] ++ (t.pile_cards ++ cards))),
        pile_cards := [], cur_phase := t.cur_phase, last_cards_played := cards,
        last_played_zone := some zone })
      false
      (is_playable_without_pickup
        (cards.headD { value := CardValue.Two, suit := CardSuit.Clubs }).value t.pile_cards)
      (cards.headD { value := CardValue.Two, suit := CardSuit.Clubs }).value
    rw [h] at hspec
    dsimp only at hspec
    rw [if_neg (by
      rw [hplay]
      simp [top_n_cards_same])] at hspec
    obtain ⟨-, hnum, hhands, hfup, hfdown, hout, hphase, hlcp, hlpz, hpile, hcleared,
      hactive⟩ := hspec
    refine ⟨hnum, hfup, hfdown, hphase, hlcp, hlpz, ?_, ?_, ?_, ?_, ?_⟩
    · constructor
      · intro hcl
        rw [hcleared] at hcl
        exact absurd hcl.2 (cleared_ne_append _ _ hpane)
      · intro hcl
        rw [hplay] at hcl
        exact absurd hcl.1 (by decide)
    · intro hcl
      rw [hplay] at hcl
      exact absurd hcl.1 (by decide)
    · intro _
      refine ⟨Or.inl hout, ?_⟩
      rw [hout]
      exact hactive
    · intro _
      exact ⟨hhands, hout, hcleared, hpile⟩
    · intro hcontra
      rw [hplay] at hcontra
      exact absurd hcontra (by decide)
  case isFalse hplay =>
    have hplay' : is_playable_without_pickup
        (cards.headD { value := CardValue.Two, suit := CardSuit.Clubs }).value
        t.pile_cards = true := by
      revert hplay
      cases is_playable_without_pickup
        (cards.headD { value := CardValue.Two, suit := CardSuit.Clubs }).value t.pile_cards <;>
        simp
    split at h
    case isTrue hempty =>
      split at h
      case isTrue hcomp => simp at h
      case isFalse hcomp =>
        have hspec := make_play_after_spec
          ({ t with
            pile_cards := t.pile_cards ++ cards, cur_phase := t.cur_phase,
            last_cards_played := cards,
            out_players := t.out_players ++ [t.active_player],
            last_played_zone := some zone })
          true
          (is_playable_without_pickup
            (cards.headD { value := CardValue.Two, suit := CardSuit.Clubs }).value t.pile_cards)
          (cards.headD { value := CardValue.Two, suit := CardSuit.Clubs }).value
        rw [h] at hspec
        dsimp only at hspec
        rw [hplay'] at hspec
        by_cases hc : ((cards.headD
            { value := CardValue.Two, suit := CardSuit.Clubs }).value = CardValue.Ten ∨
            top_n_cards_same (t.pile_cards ++ cards) t.num_players = true)
        · rw [if_pos (by
            rcases hc with hten | htop
            · exact Or.inl ⟨rfl, hten⟩
            · exact Or.inr htop)] at hspec
          obtain ⟨-, hnum, hhands, hfup, hfdown, hout, hphase, hlcp, hlpz, hpile, hcleared,
            hactive⟩ := hspec
          rw [if_pos rfl] at hactive
          refine ⟨hnum, hfup, hfdown, hphase, hlcp, hlpz, ?_, ?_, ?_, ?_, ?_⟩
          · exact ⟨fun _ => ⟨hplay', hc⟩, fun _ => ⟨hpile, hcleared⟩⟩
          · intro _
            refine Or.inr ⟨hout, ?_⟩
            rw [hout]
            exact hactive
          · intro hncl
            exact absurd ⟨hplay', hc⟩ hncl
          · intro hcontra
            rw [hplay'] at hcontra
            exact absurd hcontra (by decide)
          · intro _
            exact hhands
        · rw [if_neg (by
            intro hcontra
            rcases hcontra with ⟨_, hten⟩ | htop
            · exact hc (Or.inl hten)
            · exact hc (Or.inr htop))] at hspec
          obtain ⟨-, hnum, hhands, hfup, hfdown, hout, hphase, hlcp, hlpz, hpile, hcleared,
            hactive⟩ := hspec
          refine ⟨hnum, hfup, hfdown, hphase, hlcp, hlpz, ?_, ?_, ?_, ?_, ?_⟩
          · constructor
            · intro hcl
              rw [hpile] at hcl
              exact absurd hcl.1 hpane
            · intro hcl
              exact absurd hcl.2 hc
          · intro hcl
            exact absurd hcl.2 hc
          · intro _
            refine ⟨Or.inr hout, ?_⟩
            rw [hout]
            exact hactive
          · intro hcontra
            rw [hplay'] at hcontra
            exact absurd hcontra (by decide)
          · intro _
            exact hhands
    case isFalse hempty =>
      have hspec := make_play_after_spec
        ({ t with
          pile_cards := t.pile_cards ++ cards, cur_phase := t.cur_phase,
          last_cards_played := cards,
          last_played_zone := some zone })
        false
        (is_playable_without_pickup
          (cards.headD { value := CardValue.Two, suit := CardSuit.Clubs }).value t.pile_cards)
        (cards.headD { value := CardValue.Two, suit := CardSuit.Clubs }).value
      rw [h] at hspec
      dsimp only at hspec
      rw [hplay'] at hspec
      by_cases hc : ((cards.headD
          { value := CardValue.Two, suit := CardSuit.Clubs }).value = CardValue.Ten ∨
          top_n_cards_same (t.pile_cards ++ cards) t.num_players = true)
      · rw [if_pos (by
          rcases hc with hten | htop
          · exact Or.inl ⟨rfl, hten⟩
          · exact Or.inr htop)] at hspec
        obtain ⟨-, hnum, hhands, hfup, hfdown, hout, hphase, hlcp, hlpz, hpile, hcleared,
          hactive⟩ := hspec
        rw [if_neg (by simp)] at hactive
        refine ⟨hnum, hfup, hfdown, hphase, hlcp, hlpz, ?_, ?_, ?_, ?_, ?_⟩
        · exact ⟨fun _ => ⟨hplay', hc⟩, fun _ => ⟨hpile, hcleared⟩⟩
        · intro _
          exact Or.inl ⟨hout, hactive⟩
        · intro hncl
          exact absurd ⟨hplay', hc⟩ hncl
        · intro hcontra
          rw [hplay'] at hcontra
          exact absurd hcontra (by decide)
        · intro _
          exact hhands
      · rw [if_neg (by
          intro hcontra
          rcases hcontra with ⟨_, hten⟩ | htop
          · exact hc (Or.inl hten)
          · exact hc (Or.inr htop))] at hspec
        obtain ⟨-, hnum, hhands, hfup, hfdown, hout, hphase, hlcp, hlpz, hpile, hcleared,
          hactive⟩ := hspec
        refine ⟨hnum, hfup, hfdown, hphase, hlcp, hlpz, ?_, ?_, ?_, ?_, ?_⟩
        · constructor
          · intro hcl
            rw [hpile] at hcl
            exact absurd hcl.1 hpane
          · intro hcl
            exact absurd hcl.2 hc
        · intro hcl
          exact absurd hcl.2 hc
        · intro _
          refine ⟨Or.inl hout, ?_⟩
          rw [hout]
          exact hactive
        · intro hcontra
          rw [hplay'] at hcontra
          exact absurd hcontra (by decide)
        · intro _
          exact hhands

/-! ### The engine state invariant -/

/-- Player i's Hand and FaceUp lists are sorted (the sortedness the engine
relies on for `binary_search`). -/
def SortedZones (s : GameState) (i : Nat) : Prop :=
  List.Sorted cardLe (s.hands.getD i []) ∧ List.Sorted cardLe (s.face_up_three.getD i [])

/-- Invariant of every in-progress reachable state of an N-player game. -/
structure Inv (n : Nat) (s : GameState) : Prop where
  np : s.num_players = n
  n2 : 2 ≤ n
  hlen : s.hands.length = n
  fulen : s.face_up_three.length = n
  fdlen : s.face_down_three.length = n
  alt : s.active_player < n
  anotout : s.active_player ∉ s.out_players
  outrange : ∀ p ∈ s.out_players, p < n
  outnodup : s.out_players.Nodup
  outlen : s.out_players.length + 2 ≤ n
  setup_out : s.cur_phase = Phase.Setup → s.out_players = []
  setup_sorted : s.cur_phase = Phase.Setup → ∀ i, i < s.active_player → SortedZones s i
  play_sorted : s.cur_phase = Phase.Play → ∀ i, i < n → SortedZones s i

lemma dealZones_lengths (k : Nat) (deck : List Card) :
    (dealZones k deck).1.length = k ∧ (dealZones k deck).2.1.length = k ∧
      (dealZones k deck).2.2.length = k := by
  induction k generalizing deck with
  | zero => simp [dealZones]
  | succ m ih =>
      simp only [dealZones, List.length_cons]
      exact ⟨by rw [(ih _).1], by rw [(ih _).2.1], by rw [(ih _).2.2]⟩

lemma deal_inv (deck : List Card) (n : Nat) (hn : 2 ≤ n) : Inv n (GameState.deal deck n) := by
  refine ⟨rfl, hn, (dealZones_lengths n deck).2.2, (dealZones_lengths n deck).1,
    (dealZones_lengths n deck).2.1, by simp [GameState.deal]; omega,
    by simp [GameState.deal], by simp [GameState.deal],
    by simp [GameState.deal], by simp [GameState.deal]; omega, fun _ => rfl, ?_, ?_⟩
  · intro _ i hi
    simp [GameState.deal] at hi
  · intro hph
    simp [GameState.deal] at hph

lemma exists_living (n : Nat) (out : List Nat) (hr : ∀ p ∈ out, p < n) (hnd : out.Nodup)
    (hlen : out.length < n) : ∃ j, j < n ∧ j ∉ out := by
  by_contra hall
  push_neg at hall
  have hsub : (List.range n) ⊆ out := fun j hj => hall j (List.mem_range.mp hj)
  have hle := (List.subperm_of_subset (List.nodup_range n) hsub).length_le
  simp only [List.length_range] at hle
  omega

lemma nextPlayerFrom_nil (a n : Nat) :
    nextPlayerFrom a n [] = if a + 1 = n then 0 else a + 1 := by
  by_cases h : a + 1 = n
  · simp [nextPlayerFrom, skip_out, h]
  · simp [nextPlayerFrom, skip_out, h]

lemma sortedZones_iff_of_eq {s t : GameState} (hh : t.hands = s.hands)
    (hf : t.face_up_three = s.face_up_three) (i : Nat) :
    SortedZones t i ↔ SortedZones s i := by
  rw [SortedZones, SortedZones, hh, hf]

lemma make_play_after_inv (n : Nat) (t : GameState) (po ip : Bool) (pv : CardValue)
    (hnum : t.num_players = n) (hn2 : 2 ≤ n)
    (hH : t.hands.length = n) (hF : t.face_up_three.length = n)
    (hD : t.face_down_three.length = n)
    (hact : t.active_player < n)
    (houtr : ∀ p ∈ t.out_players, p < n) (hnd : t.out_players.Nodup)
    (hlen2 : t.out_players.length + 2 ≤ n)
    (hphase : t.cur_phase = Phase.Play)
    (hsorted : ∀ i, i < n → SortedZones t i)
    (hpo : po = false → t.active_player ∉ t.out_players) :
    Inv n (make_play_after t po ip pv).2 := by
  obtain ⟨hres, hnum', hhands, hfup, hfdown, hout, hphase', hlcp, hlpz, hbranch⟩ :=
    make_play_after_spec t po ip pv
  obtain ⟨j0, hj0n, hj0⟩ := exists_living n t.out_players houtr hnd (by omega)
  obtain ⟨hrlt, hrnot, -⟩ :=
    nextPlayerFrom_spec t.active_player n t.out_players hact houtr j0 hj0n hj0
  have hactive : (make_play_after t po ip pv).2.active_player = t.active_player ∨
      (make_play_after t po ip pv).2.active_player =
        nextPlayerFrom t.active_player t.num_players t.out_players := by
    by_cases hcl : (ip = true ∧ pv = CardValue.Ten) ∨
        top_n_cards_same t.pile_cards t.num_players = true
    · rw [if_pos hcl] at hbranch
      by_cases hpob : po = true
      · rw [if_pos hpob] at hbranch
        exact Or.inr hbranch.2.2
      · rw [if_neg hpob] at hbranch
        exact Or.inl hbranch.2.2
    · rw [if_neg hcl] at hbranch
      exact Or.inr hbranch.2.2
  have halt : (make_play_after t po ip pv).2.active_player < n := by
    rcases hactive with ha | ha
    · rw [ha]; exact hact
    · rw [ha, hnum]; exact hrlt
  have hanotout : (make_play_after t po ip pv).2.active_player ∉ t.out_players := by
    rcases hactive with ha | ha
    · -- the active player is retained only on a clear without the player
      -- going out; in that configuration po = false
      by_cases hcl : (ip = true ∧ pv = CardValue.Ten) ∨
          top_n_cards_same t.pile_cards t.num_players = true
      · rw [if_pos hcl] at hbranch
        by_cases hpob : po = true
        · rw [if_pos hpob] at hbranch
          rw [ha] at hbranch ⊢
          rw [hbranch.2.2, hnum]
          exact hrnot
        · rw [ha]
          exact hpo (by simpa using hpob)
      · rw [if_neg hcl] at hbranch
        rw [ha] at hbranch ⊢
        rw [hbranch.2.2, hnum]
        exact hrnot
    · rw [ha, hnum]
      exact hrnot
  refine ⟨by rw [hnum', hnum], hn2, by rw [hhands]; exact hH, by rw [hfup]; exact hF,
    by rw [hfdown]; exact hD, halt, by rw [hout]; exact hanotout,
    by rw [hout]; exact houtr, by rw [hout]; exact hnd, by rw [hout]; exact hlen2,
    ?_, ?_, ?_⟩
  · intro hset
    rw [hphase', hphase] at hset
    exact absurd hset (by decide)
  · intro hset
    rw [hphase', hphase] at hset
    exact absurd hset (by decide)
  · intro _ i hi
    rw [sortedZones_iff_of_eq hhands hfup]
    exact hsorted i hi

lemma make_play_finish_inv (n : Nat) (t : GameState) (zone : CardZone) (cards : List Card)
    (s' : GameState)
    (hnum : t.num_players = n) (hn2 : 2 ≤ n)
    (hH : t.hands.length = n) (hF : t.face_up_three.length = n)
    (hD : t.face_down_three.length = n)
    (hact : t.active_player < n) (hano : t.active_player ∉ t.out_players)
    (houtr : ∀ p ∈ t.out_players, p < n) (hnd : t.out_players.Nodup)
    (hlen2 : t.out_players.length + 2 ≤ n)
    (hphase : t.cur_phase = Phase.Play)
    (hsorted : ∀ i, i < n → SortedZones t i)
    (h : make_play_finish t zone cards = (PlayResult.ok false, s')) :
    Inv n s' := by
  simp only [make_play_finish] at h
  split at h
  case isTrue hplay =>
    have hinv := make_play_after_inv n
      ({ t with
        hands := t.hands.set t.active_player
          (sortCards (t.hands.getD t.active_player [] ++ (t.pile_cards ++ cards))),
        pile_cards := [], cur_phase := t.cur_phase, last_cards_played := cards,
        last_played_zone := some zone })
      false
      (is_playable_without_pickup
        (cards.headD { value := CardValue.Two, suit := CardSuit.Clubs }).value t.pile_cards)
      (cards.headD { value := CardValue.Two, suit := CardSuit.Clubs }).value
      (by simpa using hnum) hn2 (by simpa using hH) (by simpa using hF) (by simpa using hD)
      (by simpa using hact) (by simpa using houtr) (by simpa using hnd)
      (by simpa using hlen2) (by simpa using hphase) ?_ (fun _ => by simpa using hano)
    · have h2 := congrArg Prod.snd h
      dsimp only at h2
      rwa [h2] at hinv
    · intro i hi
      refine ⟨?_, (hsorted i hi).2⟩
      show List.Sorted cardLe ((t.hands.set t.active_player
        (sortCards (t.hands.getD t.active_player [] ++ (t.pile_cards ++ cards)))).getD i [])
      by_cases hia : i = t.active_player
      · rw [hia, getD_set_self _ _ _ _ (by omega)]
        exact sortCards_sorted _
      · rw [getD_set_ne _ _ _ _ _ (fun hcontra => hia hcontra.symm)]
        exact (hsorted i hi).1
  case isFalse hplay =>
    split at h
    case isTrue hempty =>
      split at h
      case isTrue hcomp => simp at h
      case isFalse hcomp =>
        have hinv := make_play_after_inv n
          ({ t with
            pile_cards := t.pile_cards ++ cards, cur_phase := t.cur_phase,
            last_cards_played := cards,
            out_players := t.out_players ++ [t.active_player],
            last_played_zone := some zone })
          true
          (is_playable_without_pickup
            (cards.headD { value := CardValue.Two, suit := CardSuit.Clubs }).value t.pile_cards)
          (cards.headD { value := CardValue.Two, suit := CardSuit.Clubs }).value
          (by simpa using hnum) hn2 (by simpa using hH) (by simpa using hF)
          (by simpa using hD) (by simpa using hact) ?_ ?_ ?_ (by simpa using hphase)
          (fun i hi => hsorted i hi)
          (fun hcontra => absurd hcontra (by decide))
        · have h2 := congrArg Prod.snd h
          dsimp only at h2
          rwa [h2] at hinv
        · intro p hp
          simp only [List.mem_append, List.mem_singleton] at hp
          rcases hp with hp | hp
          · exact houtr p hp
          · rw [hp]; exact hact
        · simp only [List.nodup_append, List.nodup_cons, List.nodup_nil]
          refine ⟨hnd, by simp, ?_⟩
          intro a ha hb
          simp only [List.mem_singleton] at hb
          rw [hb] at ha
          exact hano ha
        · have : (t.out_players ++ [t.active_player]).length ≠ t.num_players - 1 := hcomp
          simp only [List.length_append, List.length_singleton] at this
          rw [hnum] at this
          simp only [List.length_append, List.length_singleton]
          omega
    case isFalse hempty =>
      have hinv := make_play_after_inv n
        ({ t with
          pile_cards := t.pile_cards ++ cards, cur_phase := t.cur_phase,
          last_cards_played := cards,
          last_played_zone := some zone })
        false
        (is_playable_without_pickup
          (cards.headD { value := CardValue.Two, suit := CardSuit.Clubs }).value t.pile_cards)
        (cards.headD { value := CardValue.Two, suit := CardSuit.Clubs }).value
        (by simpa using hnum) hn2 (by simpa using hH) (by simpa using hF)
        (by simpa using hD) (by simpa using hact) (by simpa using houtr)
        (by simpa using hnd) (by simpa using hlen2) (by simpa using hphase)
        (fun i hi => hsorted i hi)
        (fun _ => by simpa using hano)
      have h2 := congrArg Prod.snd h
      dsimp only at h2
      rwa [h2] at hinv

lemma make_play_checked_inv (n : Nat) (s : GameState) (zone : CardZone) (cards : List Card)
    (s' : GameState) (inv : Inv n s) (hphase : s.cur_phase = Phase.Play)
    (h : make_play_checked s zone cards = (PlayResult.ok false, s')) :
    Inv n s' := by
  have hsorted := inv.play_sorted hphase
  simp only [make_play_checked] at h
  split at h
  · simp at h
  · rename_i hcards
    split at h
    · simp at h
    · split at h
      · -- Hand
        split at h
        · simp at h
        · rename_i h2 hrem
          refine make_play_finish_inv n _ CardZone.Hand cards s' (by simpa using inv.np)
            inv.n2 (by simpa using inv.hlen) (by simpa using inv.fulen)
            (by simpa using inv.fdlen) (by simpa using inv.alt)
            (by simpa using inv.anotout) (by simpa using inv.outrange)
            (by simpa using inv.outnodup) (by simpa using inv.outlen)
            (by simpa using hphase) ?_ h
          intro i hi
          refine ⟨?_, (hsorted i hi).2⟩
          show List.Sorted cardLe ((s.hands.set s.active_player h2).getD i [])
          by_cases hia : i = s.active_player
          · rw [hia, getD_set_self _ _ _ _ (by rw [inv.hlen]; exact inv.alt)]
            exact remove_cards_sorted cards _ h2 hrem (hsorted s.active_player inv.alt).1
          · rw [getD_set_ne _ _ _ _ _ (fun hcontra => hia hcontra.symm)]
            exact (hsorted i hi).1
      · -- FaceUp
        split at h
        · simp at h
        · rename_i f2 hrem
          refine make_play_finish_inv n _ CardZone.FaceUpThree cards s' (by simpa using inv.np)
            inv.n2 (by simpa using inv.hlen) (by simpa using inv.fulen)
            (by simpa using inv.fdlen) (by simpa using inv.alt)
            (by simpa using inv.anotout) (by simpa using inv.outrange)
            (by simpa using inv.outnodup) (by simpa using inv.outlen)
            (by simpa using hphase) ?_ h
          intro i hi
          refine ⟨(hsorted i hi).1, ?_⟩
          show List.Sorted cardLe ((s.face_up_three.set s.active_player f2).getD i [])
          by_cases hia : i = s.active_player
          · rw [hia, getD_set_self _ _ _ _ (by rw [inv.fulen]; exact inv.alt)]
            exact remove_cards_sorted cards _ f2 hrem (hsorted s.active_player inv.alt).2
          · rw [getD_set_ne _ _ _ _ _ (fun hcontra => hia hcontra.symm)]
            exact (hsorted i hi).2
      · -- FaceDown: no removal here (the pop happened in make_play)
        exact make_play_finish_inv n s CardZone.FaceDownThree cards s' inv.np inv.n2
          inv.hlen inv.fulen inv.fdlen inv.alt inv.anotout inv.outrange inv.outnodup
          inv.outlen hphase hsorted h

lemma make_play_inv (n : Nat) (s : GameState) (cards : List Card) (s' : GameState)
    (inv : Inv n s) (hphase : s.cur_phase = Phase.Play)
    (h : s.make_play cards = (PlayResult.ok false, s')) :
    Inv n s' := by
  simp only [GameState.make_play] at h
  split at h
  · split at h
    · simp at h
    · exact make_play_checked_inv n s CardZone.Hand cards s' inv hphase h
  · split at h
    · split at h
      · simp at h
      · exact make_play_checked_inv n s CardZone.FaceUpThree cards s' inv hphase h
    · split at h
      · simp at h
      · split at h
        · simp at h
        · rename_i c hlast
          generalize hdl : (s.face_down_three.getD s.active_player []).dropLast = dl at h
          refine make_play_checked_inv n
            ({ s with face_down_three := s.face_down_three.set s.active_player dl })
            CardZone.FaceDownThree [c] s' ?_ (by simpa using hphase) h
          exact ⟨by simpa using inv.np, inv.n2, by simpa using inv.hlen,
            by simpa using inv.fulen, by simpa using inv.fdlen, by simpa using inv.alt,
            by simpa using inv.anotout, by simpa using inv.outrange,
            by simpa using inv.outnodup, by simpa using inv.outlen,
            fun hset => by dsimp only at hset; rw [hphase] at hset; exact absurd hset (by decide),
            fun hset => by dsimp only at hset; rw [hphase] at hset; exact absurd hset (by decide),
            fun _ i hi => inv.play_sorted hphase i hi⟩

lemma choose_three_ok_spec (s : GameState) (c1 c2 c3 : Card) (u : Unit) (s' : GameState)
    (h : s.choose_three_faceup c1 c2 c3 = (Except.ok u, s')) :
    s'.hands = s.hands.set s.active_player (sortCards (remove_three_loop c1 c2 c3
      (s.hands.getD s.active_player [] ++ s.face_up_three.getD s.active_player [])
      false false false).2.2.2) ∧
    s'.face_up_three = s.face_up_three.set s.active_player (sortCards [c1, c2, c3]) ∧
    s'.face_down_three = s.face_down_three ∧
    s'.cleared_cards = s.cleared_cards ∧
    s'.pile_cards = s.pile_cards ∧
    s'.last_cards_played = s.last_cards_played ∧
    s'.last_played_zone = s.last_played_zone ∧
    s'.out_players = s.out_players ∧
    s'.num_players = s.num_players ∧
    s'.active_player = nextPlayerFrom s.active_player s.num_players s.out_players ∧
    ((s'.active_player = 0 ∧ s'.cur_phase = Phase.Play) ∨
      (s'.active_player ≠ 0 ∧ s'.cur_phase = s.cur_phase)) := by
  simp only [GameState.choose_three_faceup] at h
  split at h
  case isFalse hflags => simp at h
  case isTrue hflags =>
    have hs' := congrArg Prod.snd h
    dsimp only at hs'
    rw [← hs']
    split
    case isTrue hc =>
      exact ⟨rfl, rfl, rfl, rfl, rfl, rfl, rfl, rfl, rfl, rfl, Or.inl ⟨hc, rfl⟩⟩
    case isFalse hc =>
      exact ⟨rfl, rfl, rfl, rfl, rfl, rfl, rfl, rfl, rfl, rfl, Or.inr ⟨hc, rfl⟩⟩

lemma choose_three_faceup_inv (n : Nat) (s : GameState) (c1 c2 c3 : Card) (u : Unit)
    (s' : GameState) (inv : Inv n s) (hphase : s.cur_phase = Phase.Setup)
    (h : s.choose_three_faceup c1 c2 c3 = (Except.ok u, s')) :
    Inv n s' := by
  have hout0 : s.out_players = [] := inv.setup_out hphase
  have hsorted := inv.setup_sorted hphase
  obtain ⟨hhands, hfup, hfdown, hclr, hpile, hlcp, hlpz, hout, hnum, hactive, hcase⟩ :=
    choose_three_ok_spec s c1 c2 c3 u s' h
  have hrot : s'.active_player = if s.active_player + 1 = n then 0 else s.active_player + 1 := by
    rw [hactive, hout0, inv.np, nextPlayerFrom_nil]
  have halt : s'.active_player < n := by
    rw [hrot]
    have := inv.alt
    by_cases hw : s.active_player + 1 = n
    · rw [if_pos hw]; omega
    · rw [if_neg hw]; omega
  -- sortedness of the mutated zones, for every player that is either the
  -- acting player or was already sorted
  have hsz : ∀ i, (i = s.active_player ∨ i < s.active_player) → SortedZones s' i := by
    intro i hcase'
    constructor
    · rw [hhands]
      by_cases hia : i = s.active_player
      · rw [hia, getD_set_self _ _ _ _ (by rw [inv.hlen]; exact inv.alt)]
        exact sortCards_sorted _
      · rw [getD_set_ne _ _ _ _ _ (fun hcontra => hia hcontra.symm)]
        rcases hcase' with hc | hc
        · exact absurd hc hia
        · exact (hsorted i hc).1
    · rw [hfup]
      by_cases hia : i = s.active_player
      · rw [hia, getD_set_self _ _ _ _ (by rw [inv.fulen]; exact inv.alt)]
        exact sortCards_sorted _
      · rw [getD_set_ne _ _ _ _ _ (fun hcontra => hia hcontra.symm)]
        rcases hcase' with hc | hc
        · exact absurd hc hia
        · exact (hsorted i hc).2
  refine ⟨by rw [hnum, inv.np], inv.n2, by rw [hhands]; simpa using inv.hlen,
    by rw [hfup]; simpa using inv.fulen, by rw [hfdown]; exact inv.fdlen, halt,
    by rw [hout, hout0]; exact List.not_mem_nil _,
    by rw [hout, hout0]; exact fun p hp => absurd hp (List.not_mem_nil p),
    by rw [hout, hout0]; exact List.nodup_nil,
    by rw [hout, hout0]; simpa using inv.n2, fun _ => by rw [hout, hout0], ?_, ?_⟩
  · -- setup_sorted for the successor state
    intro _ i hi
    refine hsz i ?_
    by_cases hw : s.active_player + 1 = n
    · -- wrapped: new active is 0, no i below it
      rw [hrot, if_pos hw] at hi
      omega
    · rw [hrot, if_neg hw] at hi
      by_cases hia : i = s.active_player
      · exact Or.inl hia
      · right; omega
  · -- play_sorted: the phase became Play exactly when the rotation wrapped to 0,
    -- i.e. the acting player was the last one (index n-1)
    intro hplay i hi
    rcases hcase with ⟨hz, _⟩ | ⟨_, hph⟩
    · -- wrapped
      have hw : s.active_player + 1 = n := by
        by_contra hw
        rw [hrot, if_neg hw] at hz
        omega
      refine hsz i ?_
      by_cases hia : i = s.active_player
      · exact Or.inl hia
      · right; omega
    · rw [hph, hphase] at hplay
      exact absurd hplay (by decide)

/-- Every in-progress `take_turn` step (result `Ok false`) preserves the
invariant. -/
lemma take_turn_inv (n : Nat) (s : GameState) (cards : List Card) (s' : GameState)
    (inv : Inv n s) (h : s.take_turn cards = (PlayResult.ok false, s')) :
    Inv n s' := by
  simp only [GameState.take_turn] at h
  split at h
  case h_1 hphase =>
    split at h
    · rename_i c1 c2 c3
      split at h
      · rename_i u s1 hchoose
        have hs1 : s1 = s' := congrArg Prod.snd h
        rw [← hs1]
        exact choose_three_faceup_inv n s c1 c2 c3 u s1 inv hphase hchoose
      · simp at h
    · simp at h
  case h_2 hphase =>
    exact make_play_inv n s cards s' inv hphase h

/-! ### Reachability -/

/-- States reachable from the deal via successful in-progress turns (every
step returned `Ok false`: the game had not completed). -/
inductive ReachableLive (deck : List Card) (n : Nat) : GameState → Prop where
  | init : ReachableLive deck n (GameState.deal deck n)
  | step (s : GameState) (cards : List Card) (s' : GameState) :
      ReachableLive deck n s → s.take_turn cards = (PlayResult.ok false, s') →
      ReachableLive deck n s'

/-- States reachable via successful turns, the completing turn included. -/
def Reachable (deck : List Card) (n : Nat) (s : GameState) : Prop :=
  ReachableLive deck n s ∨
    ∃ s₀ cards, ReachableLive deck n s₀ ∧ s₀.take_turn cards = (PlayResult.ok true, s)

lemma reachableLive_inv (deck : List Card) (n : Nat) (s : GameState) (hn : 2 ≤ n)
    (h : ReachableLive deck n s) : Inv n s := by
  induction h with
  | init => exact deal_inv deck n hn
  | step s cards s' _ hstep ih => exact take_turn_inv n s cards s' ih hstep

/-- Splitting a `take` at an intermediate point. -/
lemma take_split {α : Type} (l : List α) (m n : Nat) :
    l.take (m + n) = l.take m ++ (l.drop m).take n := by
  conv_lhs => rw [← List.take_append_drop m (l.take (m + n))]
  rw [List.take_take, Nat.min_eq_left (by omega), ← List.take_drop]

/-- The multiset dealt from the deck: the first `12 * n` cards (3 face-up,
3 face-down and 6 hand cards per player); the remaining `n` cards of the
13·n-card deck are never dealt. -/
lemma zones_deal (deck : List Card) (n : Nat) :
    zonesMultiset (GameState.deal deck n) =
      ((deck.take (12 * n) : List Card) : Multiset Card) := by
  suffices hsuff : ∀ (k : Nat) (d : List Card),
      listMS (dealZones k d).2.2 + listMS (dealZones k d).1 + listMS (dealZones k d).2.1 =
        ((d.take (12 * k) : List Card) : Multiset Card) by
    simp only [zonesMultiset, GameState.deal, Multiset.coe_nil, add_zero]
    rw [← hsuff n deck]
  intro k
  induction k with
  | zero => intro d; simp [dealZones, listMS]
  | succ m ih =>
      intro d
      simp only [dealZones, listMS_cons, HAND_SIZE]
      have hdecomp : ((d.take (12 * (m + 1)) : List Card) : Multiset Card) =
          ((d.take 3 : List Card) : Multiset Card) +
          (((d.drop 3).take 3 : List Card) : Multiset Card) +
          ((((d.drop 3).drop 3).take 6 : List Card) : Multiset Card) +
          (((((d.drop 3).drop 3).drop 6).take (12 * m) : List Card) : Multiset Card) := by
        rw [show (12 * (m + 1)) = 3 + (3 + (6 + 12 * m)) from by omega]
        rw [take_split d 3 (3 + (6 + 12 * m)), coe_append,
          take_split (d.drop 3) 3 (6 + 12 * m), coe_append,
          take_split ((d.drop 3).drop 3) 6 (12 * m), coe_append]
        abel
      rw [hdecomp, ← ih (((d.drop 3).drop 3).drop 6)]
      abel

/-! ### make_play-level characterization -/

lemma make_play_checked_to_finish (s : GameState) (zone : CardZone) (cards : List Card)
    (r : PlayResult) (s' : GameState)
    (h : make_play_checked s zone cards = (r, s')) (hr : r = PlayResult.ok false ∨ r = PlayResult.ok true) :
    cards ≠ [] ∧
    ∃ t : GameState, make_play_finish t zone cards = (r, s') ∧
      t.active_player = s.active_player ∧ t.num_players = s.num_players ∧
      t.out_players = s.out_players ∧ t.pile_cards = s.pile_cards ∧
      t.cleared_cards = s.cleared_cards ∧ t.cur_phase = s.cur_phase ∧
      t.face_down_three = s.face_down_three ∧
      (zone = CardZone.Hand →
        ∃ h2, remove_cards (s.hands.getD s.active_player []) cards = some h2 ∧
          t.hands = s.hands.set s.active_player h2 ∧ t.face_up_three = s.face_up_three) ∧
      (zone = CardZone.FaceUpThree →
        ∃ f2, remove_cards (s.face_up_three.getD s.active_player []) cards = some f2 ∧
          t.face_up_three = s.face_up_three.set s.active_player f2 ∧ t.hands = s.hands) ∧
      (zone = CardZone.FaceDownThree → t.hands = s.hands ∧ t.face_up_three = s.face_up_three) := by
  simp only [make_play_checked] at h
  split at h
  · rcases hr with hr | hr <;> (rw [hr] at h; simp at h)
  · rename_i hcards
    split at h
    · rcases hr with hr | hr <;> (rw [hr] at h; simp at h)
    · split at h
      · -- Hand
        split at h
        · rcases hr with hr | hr <;> (rw [hr] at h; simp at h)
        · rename_i h2 hrem
          exact ⟨hcards, _, h, rfl, rfl, rfl, rfl, rfl, rfl, rfl,
            fun _ => ⟨h2, hrem, rfl, rfl⟩, fun hcontra => by simp at hcontra,
            fun hcontra => by simp at hcontra⟩
      · -- FaceUp
        split at h
        · rcases hr with hr | hr <;> (rw [hr] at h; simp at h)
        · rename_i f2 hrem
          exact ⟨hcards, _, h, rfl, rfl, rfl, rfl, rfl, rfl, rfl,
            fun hcontra => by simp at hcontra, fun _ => ⟨f2, hrem, rfl, rfl⟩,
            fun hcontra => by simp at hcontra⟩
      · -- FaceDown
        exact ⟨hcards, s, h, rfl, rfl, rfl, rfl, rfl, rfl, rfl,
          fun hcontra => by simp at hcontra, fun hcontra => by simp at hcontra,
          fun _ => ⟨rfl, rfl⟩⟩

lemma make_play_to_checked (s : GameState) (cards : List Card)
    (r : PlayResult) (s' : GameState)
    (h : s.make_play cards = (r, s')) (hr : r = PlayResult.ok false ∨ r = PlayResult.ok true) :
    ∃ (u : GameState) (zone : CardZone) (played : List Card),
      make_play_checked u zone played = (r, s') ∧
      u.active_player = s.active_player ∧ u.num_players = s.num_players ∧
      u.out_players = s.out_players ∧ u.pile_cards = s.pile_cards ∧
      u.cleared_cards = s.cleared_cards ∧ u.cur_phase = s.cur_phase ∧
      ((zone = CardZone.Hand ∧ u = s ∧ played = cards ∧
          s.hands.getD s.active_player [] ≠ []) ∨
        (zone = CardZone.FaceUpThree ∧ u = s ∧ played = cards ∧
          s.hands.getD s.active_player [] = [] ∧
          s.face_up_three.getD s.active_player [] ≠ []) ∨
        (zone = CardZone.FaceDownThree ∧ cards = [] ∧
          s.hands.getD s.active_player [] = [] ∧
          s.face_up_three.getD s.active_player [] = [] ∧
          ∃ c, (s.face_down_three.getD s.active_player []).getLast? = some c ∧
            played = [c] ∧
            u = { s with face_down_three :=
              s.face_down_three.set s.active_player (s.face_down_three.getD s.active_player []).dropLast } ∧
            u.hands = s.hands ∧ u.face_up_three = s.face_up_three)) := by
  simp only [GameState.make_play] at h
  split at h
  · rename_i hh
    split at h
    · rcases hr with hr | hr <;> (rw [hr] at h; simp at h)
    · exact ⟨s, CardZone.Hand, cards, h, rfl, rfl, rfl, rfl, rfl, rfl,
        Or.inl ⟨rfl, rfl, rfl, by intro hcontra; rw [hcontra] at hh; simp at hh⟩⟩
  · rename_i hh
    split at h
    · rename_i hf
      split at h
      · rcases hr with hr | hr <;> (rw [hr] at h; simp at h)
      · exact ⟨s, CardZone.FaceUpThree, cards, h, rfl, rfl, rfl, rfl, rfl, rfl,
          Or.inr (Or.inl ⟨rfl, rfl, rfl,
            by simpa using hh, by intro hcontra; rw [hcontra] at hf; simp at hf⟩)⟩
    · rename_i hf
      split at h
      · rcases hr with hr | hr <;> (rw [hr] at h; simp at h)
      · rename_i hcards0
        split at h
        · rcases hr with hr | hr <;> (rw [hr] at h; simp at h)
        · rename_i c hlast
          refine ⟨_, CardZone.FaceDownThree, [c], h, rfl, rfl, rfl, rfl, rfl, rfl,
            Or.inr (Or.inr ⟨rfl, by simpa using hcards0, by simpa using hh,
              by simpa using hf, c, hlast, rfl, rfl, rfl, rfl⟩)⟩

lemma getD_of_length_le {α : Type} (l : List α) (n : Nat) (d : α) (h : l.length ≤ n) :
    l.getD n d = d := by
  simp [List.getD_eq_getElem?_getD, List.getElem?_eq_none h]

/-- Characterization of every non-completing successful `make_play`: the
last-played bookkeeping, the exact clear trigger, the out/rotation
behavior, and the pickup branch. -/
lemma make_play_ok_false_spec (s : GameState) (cards : List Card) (s' : GameState)
    (h : s.make_play cards = (PlayResult.ok false, s')) :
    s'.num_players = s.num_players ∧
    s'.cur_phase = s.cur_phase ∧
    s'.last_cards_played ≠ [] ∧
    ((s'.pile_cards = [] ∧
        s'.cleared_cards = s.cleared_cards ++ (s.pile_cards ++ s'.last_cards_played)) ↔
      clearCondition s s'.last_cards_played) ∧
    (clearCondition s s'.last_cards_played →
      (s'.out_players = s.out_players ∧ s'.active_player = s.active_player) ∨
      (s'.out_players = s.out_players ++ [s.active_player] ∧
        s'.active_player = nextPlayerFrom s.active_player s.num_players s'.out_players)) ∧
    (¬clearCondition s s'.last_cards_played →
      (s'.out_players = s.out_players ∨ s'.out_players = s.out_players ++ [s.active_player]) ∧
      s'.active_player = nextPlayerFrom s.active_player s.num_players s'.out_players) ∧
    (is_playable_without_pickup (s'.last_cards_played.headD defaultCard).value s.pile_cards =
        false →
      s'.out_players = s.out_players ∧ s'.pile_cards = [] ∧
      s'.cleared_cards = s.cleared_cards ∧
      List.Sorted cardLe (s'.hands.getD s.active_player []) ∧
      (s.active_player < s.hands.length →
        (s'.last_played_zone = some CardZone.Hand →
          (s'.hands.getD s.active_player []).length =
            (s.hands.getD s.active_player []).length + s.pile_cards.length) ∧
        ((s'.last_played_zone = some CardZone.FaceUpThree ∨
            s'.last_played_zone = some CardZone.FaceDownThree) →
          (s'.hands.getD s.active_player []).length =
            (s.hands.getD s.active_player []).length + s.pile_cards.length +
              s'.last_cards_played.length))) := by
  obtain ⟨u, zone, played, hch, hact, hnum, hout, hpile, hclr, hph, hzone⟩ :=
    make_play_to_checked s cards _ s' h (Or.inl rfl)
  obtain ⟨hpne, t, hfin, tact, tnum, tout, tpile, tclr, tph, tfd, hHand, hFup, hFdown⟩ :=
    make_play_checked_to_finish u zone played _ s' hch (Or.inl rfl)
  obtain ⟨fnum, ffup, ffdown, fphase, flcp, flpz, fiff, fclr, fnclr, fpick, fplay⟩ :=
    make_play_finish_ok_false_spec t zone played s' hpne hfin
  have e_act : t.active_player = s.active_player := tact.trans hact
  have e_num : t.num_players = s.num_players := tnum.trans hnum
  have e_out : t.out_players = s.out_players := tout.trans hout
  have e_pile : t.pile_cards = s.pile_cards := tpile.trans hpile
  have e_clr : t.cleared_cards = s.cleared_cards := tclr.trans hclr
  have e_ph : t.cur_phase = s.cur_phase := tph.trans hph
  have hcc : clearCondition t played ↔ clearCondition s played := by
    unfold clearCondition
    rw [e_pile, e_num]
  have e_hands : t.hands.length = s.hands.length ∧
      ((s.hands.getD s.active_player []).length =
        (t.hands.getD t.active_player []).length + played.length ∨
       t.hands.getD t.active_player [] = s.hands.getD s.active_player []) := by
    rcases hzone with ⟨hz, hu, hp, -⟩ | ⟨hz, hu, hp, -, -⟩ | ⟨hz, -, -, -, c, -, hp, -, huh, -⟩
    · obtain ⟨h2, hrem, ht, -⟩ := hHand hz
      rw [hu] at hrem ht
      constructor
      · rw [ht]
        simp
      · left
        rw [ht]
        by_cases hl : s.active_player < s.hands.length
        · rw [e_act, getD_set_self _ _ _ _ hl]
          exact (remove_cards_length _ _ _ hrem).symm
        · -- out-of-range active: the hand slot is empty, so a nonempty
          -- play cannot have been removed from it
          rw [getD_of_length_le _ _ _ (by omega)] at hrem
          cases played with
          | nil => exact absurd rfl hpne
          | cons a rest => simp [remove_cards] at hrem
    · obtain ⟨f2, hrem, -, ht⟩ := hFup hz
      rw [hu] at ht
      constructor
      · rw [ht]
      · right
        rw [ht, e_act]
    · obtain ⟨ht, -⟩ := hFdown hz
      constructor
      · rw [ht, huh]
      · right
        rw [ht, huh, e_act]
  refine ⟨fnum.trans e_num, fphase.trans e_ph, by rw [flcp]; exact hpne, ?_, ?_, ?_, ?_⟩
  · rw [flcp, ← e_clr, ← e_pile]
    exact fiff.trans hcc
  · intro hc
    have hc' : clearCondition t played := hcc.mpr (by rwa [flcp] at hc)
    rcases fclr hc' with ⟨o, a⟩ | ⟨o, a⟩
    · exact Or.inl ⟨o.trans e_out, a.trans e_act⟩
    · right
      rw [e_out, e_act] at o
      rw [e_act, e_num] at a
      exact ⟨o, a⟩
  · intro hc
    have hc' : ¬clearCondition t played := fun hcl => hc (by rw [flcp]; exact hcc.mp hcl)
    obtain ⟨o, a⟩ := fnclr hc'
    rw [e_act, e_num] at a
    refine ⟨?_, a⟩
    rcases o with o | o
    · exact Or.inl (o.trans e_out)
    · right
      rw [e_out, e_act] at o
      exact o
  · intro hpk
    rw [flcp] at hpk
    rw [← e_pile] at hpk
    obtain ⟨sh, so, sc, sp⟩ := fpick hpk
    have hhand_sorted : List.Sorted cardLe (s'.hands.getD s.active_player []) := by
      rw [sh, ← e_act]
      by_cases hl : t.active_player < t.hands.length
      · rw [getD_set_self _ _ _ _ hl]
        exact sortCards_sorted _
      · rw [List.set_eq_of_length_le (by omega)]
        rw [getD_of_length_le _ _ _ (by omega)]
        exact List.sorted_nil
    refine ⟨so.trans e_out, sp, sc.trans e_clr, hhand_sorted, ?_⟩
    intro hl
    have hl' : t.active_player < t.hands.length := by
      rw [e_act, e_hands.1]
      exact hl
    have hlen_main : (s'.hands.getD s.active_player []).length =
        (t.hands.getD t.active_player []).length + t.pile_cards.length + played.length := by
      rw [sh, ← e_act, getD_set_self _ _ _ _ hl', sortCards_length]
      simp [List.length_append]
      omega
    constructor
    · intro hlpzh
      rw [flpz] at hlpzh
      -- the played zone was the Hand
      rcases hzone with ⟨hz, hu, -, -⟩ | ⟨hz, -, -, -, -⟩ | ⟨hz, -, -, -, -, -, -, -, -, -⟩
      · obtain ⟨h2, hrem, ht, -⟩ := hHand hz
        rw [hu] at hrem ht
        have hth : t.hands.getD t.active_player [] = h2 := by
          rw [ht, e_act, getD_set_self _ _ _ _ hl]
        have hrl := remove_cards_length _ _ _ hrem
        rw [hlen_main, hth, e_pile]
        omega
      · rw [hz] at hlpzh
        simp at hlpzh
      · rw [hz] at hlpzh
        simp at hlpzh
    · intro hlpzf
      rw [flpz] at hlpzf
      have hsame : t.hands.getD t.active_player [] = s.hands.getD s.active_player [] := by
        rcases hzone with ⟨hz, -, -, -⟩ | ⟨hz, hu, -, -, -⟩ | ⟨hz, -, -, -, -, -, -, -, huh, -⟩
        · rw [hz] at hlpzf
          rcases hlpzf with hc | hc <;> simp at hc
        · obtain ⟨f2, -, -, ht⟩ := hFup hz
          rw [ht, hu, e_act]
        · obtain ⟨ht, -⟩ := hFdown hz
          rw [ht, huh, e_act]
      rw [hlen_main, hsame, e_pile, flcp]

lemma make_play_finish_ok_true_spec (t : GameState) (zone : CardZone) (cards : List Card)
    (s' : GameState) (h : make_play_finish t zone cards = (PlayResult.ok true, s')) :
    s'.num_players = t.num_players ∧ s'.active_player = t.active_player ∧
    s'.out_players = (t.out_players ++ [t.active_player]) ++
      [nextPlayerFrom t.active_player t.num_players (t.out_players ++ [t.active_player])] ∧
    (t.out_players ++ [t.active_player]).length = t.num_players - 1 ∧
    s'.pile_cards = t.pile_cards ++ cards ∧
    s'.cleared_cards = t.cleared_cards ∧
    s'.last_cards_played = cards := by
  simp only [make_play_finish] at h
  split at h
  · have h1 := congrArg Prod.fst h
    dsimp only at h1
    rw [(make_play_after_spec _ _ _ _).1] at h1
    simp at h1
  · split at h
    · split at h
      case isTrue hcomp =>
        have hs' := congrArg Prod.snd h
        dsimp only at hs'
        rw [← hs']
        exact ⟨rfl, rfl, rfl, hcomp, rfl, rfl, rfl⟩
      case isFalse hcomp =>
        have h1 := congrArg Prod.fst h
        dsimp only at h1
        rw [(make_play_after_spec _ _ _ _).1] at h1
        simp at h1
    · have h1 := congrArg Prod.fst h
      dsimp only at h1
      rw [(make_play_after_spec _ _ _ _).1] at h1
      simp at h1

lemma make_play_ok_true_spec (s : GameState) (cards : List Card) (s' : GameState)
    (h : s.make_play cards = (PlayResult.ok true, s')) :
    s'.num_players = s.num_players ∧ s'.active_player = s.active_player ∧
    s'.out_players = (s.out_players ++ [s.active_player]) ++
      [nextPlayerFrom s.active_player s.num_players (s.out_players ++ [s.active_player])] ∧
    (s.out_players ++ [s.active_player]).length = s.num_players - 1 ∧
    s'.pile_cards = s.pile_cards ++ s'.last_cards_played ∧
    s'.cleared_cards = s.cleared_cards ∧
    s'.last_cards_played ≠ [] := by
  obtain ⟨u, zone, played, hch, hact, hnum, hout, hpile, hclr, hph, hzone⟩ :=
    make_play_to_checked s cards _ s' h (Or.inr rfl)
  obtain ⟨hpne, t, hfin, tact, tnum, tout, tpile, tclr, tph, tfd, -, -, -⟩ :=
    make_play_checked_to_finish u zone played _ s' hch (Or.inr rfl)
  obtain ⟨fnum, factive, fout, fcomp, fpile, fclr2, flcp⟩ :=
    make_play_finish_ok_true_spec t zone played s' hfin
  have e_act : t.active_player = s.active_player := tact.trans hact
  have e_num : t.num_players = s.num_players := tnum.trans hnum
  have e_out : t.out_players = s.out_players := tout.trans hout
  have e_pile : t.pile_cards = s.pile_cards := tpile.trans hpile
  have e_clr : t.cleared_cards = s.cleared_cards := tclr.trans hclr
  rw [e_act, e_num, e_out] at fout fcomp
  refine ⟨fnum.trans e_num, factive.trans e_act, fout, fcomp, ?_, fclr2.trans e_clr, ?_⟩
  · rw [fpile, e_pile, flcp]
  · rw [flcp]
    exact hpne

/-! ### Error atomicity -/

lemma make_play_finish_fst (t : GameState) (zone : CardZone) (cards : List Card) :
    (make_play_finish t zone cards).1 = PlayResult.ok false ∨
    (make_play_finish t zone cards).1 = PlayResult.ok true := by
  simp only [make_play_finish]
  split
  · exact Or.inl (make_play_after_spec _ _ _ _).1
  · split
    · split
      · exact Or.inr rfl
      · exact Or.inl (make_play_after_spec _ _ _ _).1
    · exact Or.inl (make_play_after_spec _ _ _ _).1

lemma make_play_finish_no_err (t : GameState) (zone : CardZone) (cards : List Card)
    (msg : String) (s' : GameState) :
    make_play_finish t zone cards ≠ (PlayResult.err msg, s') := by
  intro h
  have h1 := congrArg Prod.fst h
  dsimp only at h1
  rcases make_play_finish_fst t zone cards with hf | hf <;> (rw [h1] at hf; simp at hf)

lemma make_play_checked_err_unchanged (s : GameState) (zone : CardZone) (cards : List Card)
    (msg : String) (s' : GameState)
    (h : make_play_checked s zone cards = (PlayResult.err msg, s')) : s' = s := by
  simp only [make_play_checked] at h
  split at h
  · exact (congrArg Prod.snd h).symm
  · split at h
    · exact (congrArg Prod.snd h).symm
    · split at h
      · split at h
        · simp at h
        · exact absurd h (make_play_finish_no_err _ _ _ _ _)
      · split at h
        · simp at h
        · exact absurd h (make_play_finish_no_err _ _ _ _ _)
      · exact absurd h (make_play_finish_no_err _ _ _ _ _)

lemma make_play_err_unchanged (s : GameState) (cards : List Card)
    (msg : String) (s' : GameState)
    (h : s.make_play cards = (PlayResult.err msg, s')) : s' = s := by
  simp only [GameState.make_play] at h
  split at h
  · split at h
    · exact (congrArg Prod.snd h).symm
    · exact make_play_checked_err_unchanged _ _ _ _ _ h
  · split at h
    · split at h
      · exact (congrArg Prod.snd h).symm
      · exact make_play_checked_err_unchanged _ _ _ _ _ h
    · split at h
      · exact (congrArg Prod.snd h).symm
      · split at h
        · simp at h
        · -- face-down: the card was popped, and no later check can fail
          exfalso
          simp only [make_play_checked] at h
          split at h
          · rename_i hc
            simp at hc
          · split at h
            · rename_i msg2 heq
              simp [check_play_cards] at heq
            · exact absurd h (make_play_finish_no_err _ _ _ _ _)

/-- C10: `take_turn` is atomic on error — every `Err` return leaves the
game state exactly as it was: all validation in both phases (setup arity,
cards not held, empty play, mismatched ranks, extra cards on a face-down
play) completes before any mutation, and the face-down pre-pop can no
longer fail afterwards. -/
theorem take_turn_err_atomic (s : GameState) (cards : List Card) (msg : String)
    (s' : GameState) (h : s.take_turn cards = (PlayResult.err msg, s')) : s' = s := by
  simp only [GameState.take_turn] at h
  split at h
  · split at h
    · rename_i c1 c2 c3
      split at h
      · simp at h
      · rename_i m s1 hchoose
        have hs1 : s1 = s := by
          simp only [GameState.choose_three_faceup] at hchoose
          split at hchoose
          · simp at hchoose
          · exact (congrArg Prod.snd hchoose).symm
        rw [← hs1]
        exact (congrArg Prod.snd h).symm
    · exact (congrArg Prod.snd h).symm
  · exact make_play_err_unchanged _ _ _ _ h

/-- Concrete state for the C10 witness. -/
def c10s : GameState :=
  { active_player := 0, num_players := 2,
    hands := [[{ value := CardValue.Three, suit := CardSuit.Clubs }],
      [{ value := CardValue.King, suit := CardSuit.Clubs }]],
    face_up_three := [[], []], face_down_three := [[], []],
    cleared_cards := [], pile_cards := [], cur_phase := Phase.Play,
    last_cards_played := [], out_players := [], last_played_zone := none }

/-- C10 witness: a concrete erroring turn (playing a card not in hand)
leaves the concrete state untouched. -/
theorem take_turn_err_atomic_witness :
    c10s.take_turn [{ value := CardValue.Ace, suit := CardSuit.Spades }] =
      (PlayResult.err "can only play cards that you have",
        (c10s.take_turn [{ value := CardValue.Ace, suit := CardSuit.Spades }]).2) ∧
    (c10s.take_turn [{ value := CardValue.Ace, suit := CardSuit.Spades }]).2 = c10s :=
  ⟨by decide,
    take_turn_err_atomic c10s [{ value := CardValue.Ace, suit := CardSuit.Spades }]
      "can only play cards that you have"
      (c10s.take_turn [{ value := CardValue.Ace, suit := CardSuit.Spades }]).2 (by decide)⟩

/-! ### C3: card conservation -/

lemma reachableLive_zones (deck : List Card) (n : Nat) (s : GameState) (hn : 2 ≤ n)
    (h : ReachableLive deck n s) :
    zonesMultiset s = ((deck.take (12 * n) : List Card) : Multiset Card) := by
  induction h with
  | init => exact zones_deal deck n
  | step s cards s' hreach hstep ih =>
      have inv := reachableLive_inv deck n s hn hreach
      rw [take_turn_conserve s cards false s' (by rw [inv.hlen]; exact inv.alt)
        (by rw [inv.fulen]; exact inv.alt) (by rw [inv.fdlen]; exact inv.alt) hstep]
      exact ih

/-- C3 counterexample: the claim as stated is false already at the freshly
dealt 2-player state — the deck built by `new_deck` has 26 cards, but only
24 are dealt, so the multiset union over all zones is not the deck
multiset. -/
theorem zones_deal_ne_deck :
    zonesMultiset (GameState.deal (new_deck 2) 2) ≠ ((new_deck 2 : List Card) : Multiset Card) := by
  decide

/-- C3 (amended): for every N-player game and every state reachable from
the deal by successful `take_turn` operations (the completing turn
included), the multiset union of all Hands, FaceUps, FaceDowns, the Pile
and ClearedCards equals the multiset of the 12·N cards actually dealt —
the first 12·N cards of the shuffled deck; no `take_turn` creates or
destroys a card.  (The deck itself has 13·N cards; N of them are never
dealt, which is what falsifies the claim as stated.) -/
theorem reachable_card_conservation (deck : List Card) (n : Nat) (s : GameState)
    (hn : 2 ≤ n) (h : Reachable deck n s) :
    zonesMultiset s = ((deck.take (12 * n) : List Card) : Multiset Card) := by
  rcases h with hl | ⟨s₀, cards, hl, hstep⟩
  · exact reachableLive_zones deck n s hn hl
  · have inv := reachableLive_inv deck n s₀ hn hl
    rw [take_turn_conserve s₀ cards true s (by rw [inv.hlen]; exact inv.alt)
      (by rw [inv.fulen]; exact inv.alt) (by rw [inv.fdlen]; exact inv.alt) hstep]
    exact reachableLive_zones deck n s₀ hn hl

/-- C3 witness: the amended conservation statement evaluated at the
concrete freshly dealt 2-player game. -/
theorem reachable_card_conservation_witness :
    zonesMultiset (GameState.deal (new_deck 2) 2) =
      (((new_deck 2).take (12 * 2) : List Card) : Multiset Card) :=
  reachable_card_conservation (new_deck 2) 2 (GameState.deal (new_deck 2) 2)
    (by decide) (Or.inl ReachableLive.init)

/-! ### C5: sortedness of hands and face-up zones -/

/-- C5 counterexample: the freshly dealt state is NOT sorted in general —
`GameState::new` deals shuffled-deck chunks without sorting them.  Dealing
from the reversed construction deck (one possible shuffle outcome) gives
player 0 an unsorted face-up triple and an unsorted hand. -/
theorem deal_not_sorted :
    ¬ List.Sorted cardLe
      ((GameState.deal (new_deck 2).reverse 2).face_up_three.getD 0 []) ∧
    ¬ List.Sorted cardLe ((GameState.deal (new_deck 2).reverse 2).hands.getD 0 []) := by
  decide

/-- C5 (amended): sortedness holds from the moment a player performs their
setup selection onward — in every reachable Play-phase state every player's
Hand and FaceUp lists are sorted ascending, and during the Setup phase
exactly the players that already chose (the indices below the active
player) are sorted; the freshly dealt state is in shuffle order and not
sorted in general. -/
theorem reachable_sorted_zones (deck : List Card) (n : Nat) (s : GameState)
    (hn : 2 ≤ n) (h : ReachableLive deck n s) :
    (s.cur_phase = Phase.Play → ∀ i, i < n →
      List.Sorted cardLe (s.hands.getD i []) ∧
      List.Sorted cardLe (s.face_up_three.getD i [])) ∧
    (s.cur_phase = Phase.Setup → ∀ i, i < s.active_player →
      List.Sorted cardLe (s.hands.getD i []) ∧
      List.Sorted cardLe (s.face_up_three.getD i [])) := by
  have inv := reachableLive_inv deck n s hn h
  exact ⟨fun hph i hi => inv.play_sorted hph i hi, fun hph i hi => inv.setup_sorted hph i hi⟩

/-- The 2-player deal from the construction deck, after player 0's setup
selection (three hand cards chosen face-up): a concrete reachable state. -/
def c5s1 : GameState :=
  ((GameState.deal (new_deck 2) 2).take_turn
    [{ value := CardValue.Eight, suit := CardSuit.Clubs },
      { value := CardValue.Nine, suit := CardSuit.Diamonds },
      { value := CardValue.Ten, suit := CardSuit.Clubs }]).2

/-- C5 witness: after player 0's setup turn the amended statement yields
that player 0's zones are sorted. -/
theorem reachable_sorted_zones_witness :
    List.Sorted cardLe (c5s1.hands.getD 0 []) ∧
    List.Sorted cardLe (c5s1.face_up_three.getD 0 []) :=
  (reachable_sorted_zones (new_deck 2) 2 c5s1 (by decide)
    (ReachableLive.step (GameState.deal (new_deck 2) 2)
      [{ value := CardValue.Eight, suit := CardSuit.Clubs },
        { value := CardValue.Nine, suit := CardSuit.Diamonds },
        { value := CardValue.Ten, suit := CardSuit.Clubs }]
      c5s1 ReachableLive.init (by decide))).2 (by decide) 0 (by decide)

/-! ### C2: the pile-clear trigger -/

/-- Spec-modelled clear test, for comparison with the source's
`top_n_cards_same`: the top `num_players` cards of the pile all match a
single rank, with any number of interleaved Fours treated as
continuations — i.e. walking down from the top at least `num_players`
matching cards are found.  (The source instead requires the count of
matching cards to be EXACTLY `num_players`.) -/
def top_n_cards_same_claimed (pile : List Card) (num_players : Nat) : Bool :=
  match pile.getLast? with
  | none => false
  | some c => decide (num_players ≤ top_same_count c.value pile.reverse)

/-- A 2-player Play state: player 0 holds three Threes and a King, piles
empty, nobody out. -/
def c2s : GameState :=
  { active_player := 0, num_players := 2,
    hands := [[{ value := CardValue.Three, suit := CardSuit.Clubs },
      { value := CardValue.Three, suit := CardSuit.Diamonds },
      { value := CardValue.Three, suit := CardSuit.Hearts },
      { value := CardValue.King, suit := CardSuit.Clubs }],
      [{ value := CardValue.Two, suit := CardSuit.Clubs }]],
    face_up_three := [[], []], face_down_three := [[], []],
    cleared_cards := [], pile_cards := [], cur_phase := Phase.Play,
    last_cards_played := [], out_players := [], last_played_zone := none }

/-- The play of the three Threes from `c2s`. -/
def c2cards : List Card :=
  [{ value := CardValue.Three, suit := CardSuit.Clubs },
    { value := CardValue.Three, suit := CardSuit.Diamonds },
    { value := CardValue.Three, suit := CardSuit.Hearts }]

/-- C2 counterexample: playing three Threes on an empty 2-player pile is a
successful, playable play after which the top 2 cards of the pile share a
single rank — the claimed trigger fires — yet no clear happens (the source
requires the matching count, here 3, to be exactly `num_players`): the pile
is left non-empty, nothing moves to `cleared_cards`, and the turn rotates
instead of being retained. -/
theorem make_play_overshoot_no_clear :
    (c2s.make_play c2cards).1 = PlayResult.ok false ∧
    is_playable_without_pickup CardValue.Three c2s.pile_cards = true ∧
    top_n_cards_same_claimed
      (c2s.pile_cards ++ (c2s.make_play c2cards).2.last_cards_played) c2s.num_players = true ∧
    (c2s.make_play c2cards).2.pile_cards ≠ [] ∧
    (c2s.make_play c2cards).2.cleared_cards = c2s.cleared_cards ∧
    (c2s.make_play c2cards).2.active_player ≠ c2s.active_player := by
  decide

/-- C2 (amended): for every successful `make_play`.  On a non-completing
play (`ok false`) the pile is moved into `cleared_cards` and emptied
exactly when the play was playable and (its rank is Ten, or the count of
top-rank matches of the resulting pile — interleaved Fours skipped — is
EXACTLY `num_players`; at-least-`num_players` matches do not fire it); when
this trigger fires the active player retains the turn unless the player
just went out (then play rotates past the out players), and when it does
not fire play rotates.  On the completing play (`ok true`) the clear block
is skipped entirely: the played cards stay on the pile and `cleared_cards`
is untouched, even if the trigger condition holds. -/
theorem make_play_clear_characterization (s : GameState) (cards : List Card)
    (b : Bool) (s' : GameState) (h : s.make_play cards = (PlayResult.ok b, s')) :
    (b = false →
      ((s'.pile_cards = [] ∧
          s'.cleared_cards = s.cleared_cards ++ (s.pile_cards ++ s'.last_cards_played)) ↔
        (is_playable_without_pickup (s'.last_cards_played.headD defaultCard).value
            s.pile_cards = true ∧
          ((s'.last_cards_played.headD defaultCard).value = CardValue.Ten ∨
            top_n_cards_same (s.pile_cards ++ s'.last_cards_played) s.num_players = true))) ∧
      (clearCondition s s'.last_cards_played →
        (s'.out_players = s.out_players ∧ s'.active_player = s.active_player) ∨
        (s'.out_players = s.out_players ++ [s.active_player] ∧
          s'.active_player = nextPlayerFrom s.active_player s.num_players s'.out_players)) ∧
      (¬clearCondition s s'.last_cards_played →
        s'.active_player = nextPlayerFrom s.active_player s.num_players s'.out_players)) ∧
    (b = true →
      s'.pile_cards = s.pile_cards ++ s'.last_cards_played ∧
      s'.last_cards_played ≠ [] ∧
      s'.cleared_cards = s.cleared_cards) := by
  constructor
  · intro hb
    rw [hb] at h
    obtain ⟨-, -, -, hiff, hclr, hnclr, -⟩ := make_play_ok_false_spec s cards s' h
    exact ⟨hiff, hclr, fun hc => ((hnclr hc).2)⟩
  · intro hb
    rw [hb] at h
    obtain ⟨-, -, -, -, hpile, hclr2, hlcp⟩ := make_play_ok_true_spec s cards s' h
    exact ⟨hpile, hlcp, hclr2⟩

/-- A 2-player clear state: pile holds a Three, player 0 holds a matching
Three (and keeps a face-down card, so is not out). -/
def c2w : GameState :=
  { active_player := 0, num_players := 2,
    hands := [[{ value := CardValue.Three, suit := CardSuit.Clubs }],
      [{ value := CardValue.King, suit := CardSuit.Clubs }]],
    face_up_three := [[], []],
    face_down_three := [[{ value := CardValue.Ace, suit := CardSuit.Clubs }],
      [{ value := CardValue.Ace, suit := CardSuit.Diamonds }]],
    cleared_cards := [],
    pile_cards := [{ value := CardValue.Three, suit := CardSuit.Diamonds }],
    cur_phase := Phase.Play,
    last_cards_played := [], out_players := [], last_played_zone := none }

/-- The matching Three played from `c2w`. -/
def c2wcards : List Card := [{ value := CardValue.Three, suit := CardSuit.Clubs }]

/-- C2 witness: in `c2w` the second Three makes the top-2 count exactly 2,
so the clear fires — the pile empties into `cleared_cards`. -/
theorem make_play_clear_characterization_witness :
    (c2w.make_play c2wcards).2.pile_cards = [] ∧
    (c2w.make_play c2wcards).2.cleared_cards =
      c2w.cleared_cards ++ (c2w.pile_cards ++ (c2w.make_play c2wcards).2.last_cards_played) :=
  ((make_play_clear_characterization c2w c2wcards false ((c2w.make_play c2wcards).2)
      (by decide)).1 rfl).1.mpr (by decide)

/-! ### C6: the pickup branch -/

/-- A 2-player Play state for the pickup branch: player 0 holds a Three and
a King, the pile holds an Ace (a Three is not playable on it). -/
def c6s : GameState :=
  { active_player := 0, num_players := 2,
    hands := [[{ value := CardValue.Three, suit := CardSuit.Clubs },
      { value := CardValue.King, suit := CardSuit.Clubs }],
      [{ value := CardValue.Two, suit := CardSuit.Clubs }]],
    face_up_three := [[], []], face_down_three := [[], []],
    cleared_cards := [],
    pile_cards := [{ value := CardValue.Ace, suit := CardSuit.Clubs }],
    cur_phase := Phase.Play,
    last_cards_played := [], out_players := [], last_played_zone := none }

/-- The unplayable Three played from `c6s`. -/
def c6cards : List Card := [{ value := CardValue.Three, suit := CardSuit.Clubs }]

/-- C6 counterexample: playing the unplayable Three from the Hand takes the
pickup branch, but the hand grows only by `|pile|` — the played cards were
removed from the hand before the pile (which now includes them) was picked
back up — strictly less than the claimed `|pile| + |play|`. -/
theorem make_play_pickup_hand_counter :
    (c6s.make_play c6cards).1 = PlayResult.ok false ∧
    is_playable_without_pickup CardValue.Three c6s.pile_cards = false ∧
    (c6s.make_play c6cards).2.pile_cards = [] ∧
    ((c6s.make_play c6cards).2.hands.getD 0 []).length =
      (c6s.hands.getD 0 []).length + c6s.pile_cards.length ∧
    (c6s.hands.getD 0 []).length + c6s.pile_cards.length <
      (c6s.hands.getD 0 []).length + c6s.pile_cards.length + c6cards.length := by
  decide

/-- C6 (amended): for every `make_play` that takes the pickup branch (the
played rank is not playable on the current pile): afterwards the pile is
empty, the out list is unchanged (the player is not marked out),
`cleared_cards` is unchanged, and the active player's hand is sorted.  The
hand's growth depends on the played zone: a Hand play grows the hand by
`|pile|` only (the played cards leave the hand and come straight back with
the pile), while a FaceUp or FaceDown play grows it by `|pile| + |play|`. -/
theorem make_play_pickup_spec (s : GameState) (cards : List Card) (s' : GameState)
    (h : s.make_play cards = (PlayResult.ok false, s'))
    (hpk : is_playable_without_pickup (s'.last_cards_played.headD defaultCard).value
      s.pile_cards = false)
    (hl : s.active_player < s.hands.length) :
    s'.pile_cards = [] ∧
    s'.out_players = s.out_players ∧
    s'.cleared_cards = s.cleared_cards ∧
    List.Sorted cardLe (s'.hands.getD s.active_player []) ∧
    (s'.last_played_zone = some CardZone.Hand →
      (s'.hands.getD s.active_player []).length =
        (s.hands.getD s.active_player []).length + s.pile_cards.length) ∧
    ((s'.last_played_zone = some CardZone.FaceUpThree ∨
        s'.last_played_zone = some CardZone.FaceDownThree) →
      (s'.hands.getD s.active_player []).length =
        (s.hands.getD s.active_player []).length + s.pile_cards.length +
          s'.last_cards_played.length) := by
  obtain ⟨-, -, -, -, -, -, hpick⟩ := make_play_ok_false_spec s cards s' h
  obtain ⟨ho, hp, hc, hs, hlen⟩ := hpick hpk
  exact ⟨hp, ho, hc, hs, fun hz => (hlen hl).1 hz, fun hz => (hlen hl).2 hz⟩

/-- C6 witness: the concrete pickup play from `c6s`, with the Hand-zone
growth formula instantiated. -/
theorem make_play_pickup_spec_witness :
    (c6s.make_play c6cards).2.pile_cards = [] ∧
    (c6s.make_play c6cards).2.out_players = c6s.out_players ∧
    List.Sorted cardLe ((c6s.make_play c6cards).2.hands.getD c6s.active_player []) ∧
    ((c6s.make_play c6cards).2.hands.getD c6s.active_player []).length =
      (c6s.hands.getD c6s.active_player []).length + c6s.pile_cards.length :=
  have hmain := make_play_pickup_spec c6s c6cards ((c6s.make_play c6cards).2)
    (by decide) (by decide) (by decide)
  ⟨hmain.1, hmain.2.1, hmain.2.2.2.1, hmain.2.2.2.2.1 (by decide)⟩

/-! ### C4: active player, rotation, and completion -/

lemma all_mem_of_nodup_length (l : List Nat) (n : Nat) (hnd : l.Nodup)
    (hrange : ∀ p ∈ l, p < n) (hlen : n ≤ l.length) : ∀ p, p < n → p ∈ l := by
  have hsub : l ⊆ List.range n := fun x hx => List.mem_range.mpr (hrange x hx)
  have hperm := (List.subperm_of_subset hnd hsub).perm_of_length_le
    (by simpa using hlen)
  intro p hp
  exact hperm.mem_iff.mpr (List.mem_range.mpr hp)

lemma rotation_case (n act : Nat) (out : List Nat) (hact : act < n)
    (hrange : ∀ q ∈ out, q < n) (hnd : out.Nodup) (hlen : out.length + 2 ≤ n) :
    ∃ k, 1 ≤ k ∧ k ≤ n ∧ nextPlayerFrom act n out = (act + k) % n ∧
      ∀ j, 1 ≤ j → j < k → (act + j) % n ∈ out := by
  obtain ⟨j0, hj0n, hj0⟩ := exists_living n out hrange hnd (by omega)
  exact (nextPlayerFrom_spec act n out hact hrange j0 hj0n hj0).2.2

/-- C4: in every in-progress reachable state the active player is not in
`out_players`; a successful turn reports completion (`Ok true`) exactly when
`out_players` has grown to all `n` players, the last living player being
appended last; and a non-completing turn either leaves the active player in
place (clear retains the turn) or advances it to the next index modulo `n`
skipping exactly the members of `out_players`. -/
theorem active_rotation_completion (deck : List Card) (n : Nat) (s : GameState)
    (hn : 2 ≤ n) (h : ReachableLive deck n s) :
    s.active_player ∉ s.out_players ∧
    ∀ (cards : List Card) (b : Bool) (s' : GameState),
      s.take_turn cards = (PlayResult.ok b, s') →
      ((b = true ↔ s'.out_players.length = n) ∧
        (b = true →
          s'.out_players = (s.out_players ++ [s.active_player]) ++
            [nextPlayerFrom s.active_player n (s.out_players ++ [s.active_player])] ∧
          nextPlayerFrom s.active_player n (s.out_players ++ [s.active_player]) ∉
            s.out_players ++ [s.active_player] ∧
          (∀ p, p < n → p ∈ s'.out_players)) ∧
        (b = false →
          s'.active_player < n ∧ s'.active_player ∉ s'.out_players ∧
          (s'.active_player = s.active_player ∨
            ∃ k, 1 ≤ k ∧ k ≤ n ∧ s'.active_player = (s.active_player + k) % n ∧
              ∀ j, 1 ≤ j → j < k → (s.active_player + j) % n ∈ s'.out_players))) := by
  have inv := reachableLive_inv deck n s hn h
  refine ⟨inv.anotout, ?_⟩
  intro cards b s' ht
  cases b with
  | true =>
      have hmp : s.make_play cards = (PlayResult.ok true, s') := by
        simp only [GameState.take_turn] at ht
        split at ht
        · split at ht
          · split at ht
            · simp at ht
            · simp at ht
          · simp at ht
        · exact ht
      obtain ⟨hnum, hact, hout, hlen1, -, -, -⟩ := make_play_ok_true_spec s cards s' hmp
      rw [inv.np] at hout hlen1
      have hlen1n : s.out_players.length + 1 = n - 1 := by
        simpa using congrArg id hlen1
      have hrange1 : ∀ p ∈ s.out_players ++ [s.active_player], p < n := by
        intro p hp
        rcases List.mem_append.mp hp with hp | hp
        · exact inv.outrange p hp
        · have : p = s.active_player := by simpa using hp
          rw [this]
          exact inv.alt
      have hnd1 : (s.out_players ++ [s.active_player]).Nodup := by
        rw [List.nodup_append]
        refine ⟨inv.outnodup, List.nodup_singleton _, fun a ha hb => inv.anotout ?_⟩
        have : a = s.active_player := by simpa using hb
        rw [← this]
        exact ha
      obtain ⟨j0, hj0n, hj0⟩ := exists_living n (s.out_players ++ [s.active_player])
        hrange1 hnd1 (by omega)
      obtain ⟨hlt, hnot, -⟩ := nextPlayerFrom_spec s.active_player n
        (s.out_players ++ [s.active_player]) inv.alt hrange1 j0 hj0n hj0
      have houtlen : s'.out_players.length = n := by
        rw [hout]
        simp only [List.length_append, List.length_singleton]
        omega
      refine ⟨⟨fun _ => houtlen, fun _ => rfl⟩, fun _ => ⟨hout, hnot, ?_⟩,
        fun hc => absurd hc (by decide)⟩
      refine all_mem_of_nodup_length s'.out_players n ?_ ?_ (by omega)
      · rw [hout, List.nodup_append]
        refine ⟨hnd1, List.nodup_singleton _, fun a ha hb => hnot ?_⟩
        have : a = nextPlayerFrom s.active_player n
            (s.out_players ++ [s.active_player]) := by simpa using hb
        rw [← this]
        exact ha
      · intro p hp
        rw [hout] at hp
        rcases List.mem_append.mp hp with hp | hp
        · exact hrange1 p hp
        · have : p = nextPlayerFrom s.active_player n
              (s.out_players ++ [s.active_player]) := by simpa using hp
          rw [this]
          exact hlt
  | false =>
      have inv' := take_turn_inv n s cards s' inv ht
      refine ⟨⟨fun hc => absurd hc (by decide),
        fun hlen => absurd inv'.outlen (by omega)⟩,
        fun hc => absurd hc (by decide),
        fun _ => ⟨inv'.alt, inv'.anotout, ?_⟩⟩
      simp only [GameState.take_turn] at ht
      split at ht
      case h_1 hphase =>
        split at ht
        · rename_i c1 c2 c3
          split at ht
          · rename_i u s1 hchoose
            have hs1 : s1 = s' := congrArg Prod.snd ht
            obtain ⟨-, -, -, -, -, -, -, hout1, -, hact1, -⟩ :=
              choose_three_ok_spec s c1 c2 c3 u s1 hchoose
            rw [inv.np] at hact1
            right
            rw [← hs1, hact1, hout1]
            exact rotation_case n s.active_player s.out_players inv.alt
              inv.outrange inv.outnodup inv.outlen
          · simp at ht
        · simp at ht
      case h_2 hphase =>
        obtain ⟨-, -, -, -, hclr, hnclr, -⟩ := make_play_ok_false_spec s cards s' ht
        by_cases hcc : clearCondition s s'.last_cards_played
        · rcases hclr hcc with ⟨-, ha⟩ | ⟨-, ha⟩
          · exact Or.inl ha
          · right
            rw [inv.np] at ha
            rw [ha]
            exact rotation_case n s.active_player s'.out_players inv.alt
              inv'.outrange inv'.outnodup inv'.outlen
        · obtain ⟨-, ha⟩ := hnclr hcc
          right
          rw [inv.np] at ha
          rw [ha]
          exact rotation_case n s.active_player s'.out_players inv.alt
            inv'.outrange inv'.outnodup inv'.outlen

/-- C4 witness: the concrete setup turn from the freshly dealt 2-player
game keeps the (rotated) active player off the out list and in range. -/
theorem active_rotation_completion_witness :
    c5s1.active_player < 2 ∧ c5s1.active_player ∉ c5s1.out_players :=
  have hmain := (active_rotation_completion (new_deck 2) 2 (GameState.deal (new_deck 2) 2)
    (by decide) ReachableLive.init).2
    [{ value := CardValue.Eight, suit := CardSuit.Clubs },
      { value := CardValue.Nine, suit := CardSuit.Diamonds },
      { value := CardValue.Ten, suit := CardSuit.Clubs }] false c5s1 (by decide)
  ⟨(hmain.2.2 rfl).1, (hmain.2.2 rfl).2.1⟩

/-! ### C8: the simulation (monte) game's setup selection -/

namespace Monte

/-- `struct GameState` from monte_game.rs (the ISMCTS simulation game):
like the engine's state but without cleared/last-played bookkeeping. -/
structure GameState where
  active_player : Nat
  num_players : Nat
  hands : List (List Card)
  face_up_three : List (List Card)
  face_down_three : List (List Card)
  pile_cards : List Card
  cur_phase : Phase
  out_players : List Nat
deriving DecidableEq, Repr

/-- `GameState::next_player` from monte_game.rs (identical to the engine's). -/
def GameState.next_player (s : GameState) : Nat :=
  nextPlayerFrom s.active_player s.num_players s.out_players

/-- `GameState::rotate_play` from monte_game.rs. -/
def GameState.rotate_play (s : GameState) : GameState :=
  { s with active_player := s.next_player }

/-- `GameState::choose_three_faceup` from monte_game.rs: the same
hand-plus-faceup pool and removal loop as the engine's, but with the
`card_*_removed` validation check dropped — the function always returns
`Ok(())` and mutates unconditionally. -/
def GameState.choose_three_faceup (s : GameState) (c1 c2 c3 : Card) :
    Except String Unit × GameState :=
  let all_cards := s.hands.getD s.active_player [] ++ s.face_up_three.getD s.active_player []
  let res := remove_three_loop c1 c2 c3 all_cards false false false
  let s1 := { s with
    face_up_three := s.face_up_three.set s.active_player (sortCards [c1, c2, c3]),
    hands := s.hands.set s.active_player (sortCards res.2.2.2) }
  let s2 := s1.rotate_play
  let s3 := if s2.active_player = 0 then { s2 with cur_phase := Phase.Play } else s2
  (Except.ok (), s3)

end Monte

/-- A 2-player simulation state in Setup: player 0's hand holds only the
Three of Clubs; their face-up cards are the Five, Six and Seven of Clubs. -/
def c8s : Monte.GameState :=
  { active_player := 0, num_players := 2,
    hands := [[{ value := CardValue.Three, suit := CardSuit.Clubs }],
      [{ value := CardValue.Two, suit := CardSuit.Clubs }]],
    face_up_three := [[{ value := CardValue.Five, suit := CardSuit.Clubs },
      { value := CardValue.Six, suit := CardSuit.Clubs },
      { value := CardValue.Seven, suit := CardSuit.Clubs }],
      [{ value := CardValue.Eight, suit := CardSuit.Clubs },
        { value := CardValue.Nine, suit := CardSuit.Clubs },
        { value := CardValue.Ten, suit := CardSuit.Clubs }]],
    face_down_three := [[], []], pile_cards := [],
    cur_phase := Phase.Setup, out_players := [] }

/-- C8 counterexample: from `c8s` the simulation accepts the selection
(Five, Six, Three) even though Five and Six are NOT in the hand — they are
drawn from the existing FaceUp cards — and the resulting hand contains the
Seven of Clubs, a card that was never in the hand.  The pool therefore does
merge the FaceUp cards, contrary to the claim. -/
theorem monte_choose_merges_faceup :
    (c8s.choose_three_faceup { value := CardValue.Five, suit := CardSuit.Clubs }
      { value := CardValue.Six, suit := CardSuit.Clubs }
      { value := CardValue.Three, suit := CardSuit.Clubs }).1 = Except.ok () ∧
    { value := CardValue.Five, suit := CardSuit.Clubs } ∉ c8s.hands.getD 0 [] ∧
    (c8s.choose_three_faceup { value := CardValue.Five, suit := CardSuit.Clubs }
      { value := CardValue.Six, suit := CardSuit.Clubs }
      { value := CardValue.Three, suit := CardSuit.Clubs }).2.hands.getD 0 [] =
      [{ value := CardValue.Seven, suit := CardSuit.Clubs }] ∧
    { value := CardValue.Seven, suit := CardSuit.Clubs } ∉ c8s.hands.getD 0 [] := by
  refine ⟨rfl, by decide, by decide, by decide⟩

/-- C8 (amended): the simulation game's setup selection draws the three
face-up cards from the MERGED pool of the active player's Hand and existing
FaceUp cards — the same `hand ++ face_up` pool and removal loop as the
authoritative engine — and performs no validation: it always returns
`Ok(())`, and the sorted chosen triple unconditionally becomes the new
FaceUp, whether or not the cards were held. -/
theorem monte_choose_three_spec (s : Monte.GameState) (c1 c2 c3 : Card) :
    (s.choose_three_faceup c1 c2 c3).1 = Except.ok () ∧
    (s.choose_three_faceup c1 c2 c3).2.face_up_three =
      s.face_up_three.set s.active_player (sortCards [c1, c2, c3]) ∧
    (s.choose_three_faceup c1 c2 c3).2.hands =
      s.hands.set s.active_player (sortCards (remove_three_loop c1 c2 c3
        (s.hands.getD s.active_player [] ++ s.face_up_three.getD s.active_player [])
        false false false).2.2.2) := by
  refine ⟨rfl, ?_, ?_⟩ <;>
    (simp only [Monte.GameState.choose_three_faceup, Monte.GameState.rotate_play]; split <;> rfl)

/-! ### C9: reconnection -/

/-- `enum DisconnectedReason` from lib.rs. -/
inductive DisconnectedReason where
  | Kicked
  | TimedOut
  | Left
deriving DecidableEq, Repr

/-- `struct DisconnectedState` from lib.rs; `time : Instant` is omitted
(wall-clock time, unused by reconnection). -/
structure DisconnectedState where
  reason : DisconnectedReason
deriving DecidableEq, Repr

/-- `struct AiState` from lib.rs; the boxed AI core (a trait object driving
moves, irrelevant to connection handling) is omitted. -/
structure AiState where
  is_clandestine : Bool
deriving DecidableEq, Repr

/-- `enum Connection` from lib.rs; a `ws::Sender` sink is modelled by a
numeric identity. -/
inductive Connection where
  | Connected (sink : Nat)
  | Disconnected (ds : DisconnectedState)
  | Ai (ai : AiState)
deriving DecidableEq, Repr

/-- `struct Player` from lib.rs. -/
structure Player where
  name : String
  connection : Connection
  turn_number : Nat
deriving DecidableEq, Repr

/-- `struct Lobby` from lib.rs, the fields reaching `do_reconnect`;
`players_by_turn_num` (a redundant index), `creation_time : Instant` and
the spectator sinks' identities are omitted; the `HashMap<PlayerId, Player>`
is an association list keyed by player id. -/
structure Lobby where
  players : List (Nat × Player)
  spectators : List Nat
  max_players : Nat
  password : String
  game : Option GameState
  owner : Nat
  name : String
  turn_timer : Nat
  games_completed : Nat

/-- `enum ReconnectError` from data.rs. -/
inductive ReconnectError where
  | LobbyNotFound
  | PlayerNotFound
  | PlayerKicked
deriving DecidableEq, Repr

/-- `struct ReconnectResponse` from data.rs. -/
structure ReconnectResponse where
  max_players : Nat
  num_spectators : Nat
  turn_timer : Nat
deriving DecidableEq, Repr

/-- `HashMap::get` on the association-list model: the first binding of the
key. -/
def assoc_get {β : Type} : List (Nat × β) → Nat → Option β
  | [], _ => none
  | (k, v) :: rest, key => if k = key then some v else assoc_get rest key

/-- `HashMap::get_mut`-then-assign on the association-list model: replace
every binding of the key (a `HashMap` holds at most one). -/
def assoc_update {β : Type} : List (Nat × β) → Nat → β → List (Nat × β)
  | [], _, _ => []
  | (k, v0) :: rest, key, v =>
      if k = key then (key, v) :: assoc_update rest key v
      else (k, v0) :: assoc_update rest key v

/-- The early-return guard of `do_reconnect` (lib.rs): the stored connection
is `Disconnected` with reason `Kicked`. -/
def reconnect_kick_check : Connection → Bool
  | Connection.Disconnected ds => decide (ds.reason = DisconnectedReason.Kicked)
  | _ => false

/-- `Server::do_reconnect` from lib.rs: look up the lobby, then the player;
refuse only a kicked player; otherwise unconditionally replace the player's
connection with `Connected` on the requesting sink and answer with the
lobby's parameters.  (The game-start events re-sent to the new sink are
I/O only and carry no state.) -/
def do_reconnect (lobbies : List (Nat × Lobby)) (lobby_id player_id sink : Nat) :
    Except ReconnectError ReconnectResponse × List (Nat × Lobby) :=
  match assoc_get lobbies lobby_id with
  | none => (Except.error ReconnectError.LobbyNotFound, lobbies)
  | some lobby =>
      match assoc_get lobby.players player_id with
      | none => (Except.error ReconnectError.PlayerNotFound, lobbies)
      | some player =>
          if reconnect_kick_check player.connection = true then
            (Except.error ReconnectError.PlayerKicked, lobbies)
          else
            let player2 := { player with connection := Connection.Connected sink }
            let lobby2 := { lobby with players := assoc_update lobby.players player_id player2 }
            let resp : ReconnectResponse := { max_players := lobby.max_players, num_spectators := lobby.spectators.length, turn_timer := lobby.turn_timer }
            (Except.ok resp, assoc_update lobbies lobby_id lobby2)

lemma reconnect_kick_check_iff (c : Connection) :
    reconnect_kick_check c = true ↔
      ∃ ds, c = Connection.Disconnected ds ∧ ds.reason = DisconnectedReason.Kicked := by
  cases c with
  | Connected s => simp [reconnect_kick_check]
  | Disconnected ds => simp [reconnect_kick_check]
  | Ai a => simp [reconnect_kick_check]

lemma assoc_get_update {β : Type} (l : List (Nat × β)) (key : Nat) (v w : β)
    (h : assoc_get l key = some w) : assoc_get (assoc_update l key v) key = some v := by
  induction l with
  | nil => simp [assoc_get] at h
  | cons p rest ih =>
      obtain ⟨k1, v1⟩ := p
      by_cases hk : k1 = key
      · simp [assoc_update, assoc_get, hk]
      · simp only [assoc_get, if_neg hk] at h
        simp [assoc_update, assoc_get, hk, ih h]

lemma do_reconnect_eq (lobbies : List (Nat × Lobby)) (lobby_id player_id sink : Nat)
    (lobby : Lobby) (player : Player)
    (hlob : assoc_get lobbies lobby_id = some lobby)
    (hpl : assoc_get lobby.players player_id = some player) :
    do_reconnect lobbies lobby_id player_id sink =
      if reconnect_kick_check player.connection = true then
        (Except.error ReconnectError.PlayerKicked, lobbies)
      else
        (Except.ok { max_players := lobby.max_players, num_spectators := lobby.spectators.length, turn_timer := lobby.turn_timer },
          assoc_update lobbies lobby_id { lobby with players := assoc_update lobby.players player_id { player with connection := Connection.Connected sink } }) := by
  unfold do_reconnect
  rw [hlob]
  dsimp only
  rw [hpl]

/-- C9: for a reconnect request naming an existing lobby and an existing
player, the operation fails iff the player's stored connection is
`Disconnected` with reason `Kicked` (with error `PlayerKicked`); in every
other case — currently connected elsewhere, disconnected by leaving or
timeout, or an AI — it succeeds, answers with the lobby's parameters, and
unconditionally replaces the player's connection with `Connected` on the
requesting sink. -/
theorem do_reconnect_spec (lobbies : List (Nat × Lobby)) (lobby_id player_id sink : Nat)
    (lobby : Lobby) (player : Player)
    (hlob : assoc_get lobbies lobby_id = some lobby)
    (hpl : assoc_get lobby.players player_id = some player) :
    ((do_reconnect lobbies lobby_id player_id sink).1 =
        Except.error ReconnectError.PlayerKicked ↔
      ∃ ds, player.connection = Connection.Disconnected ds ∧
        ds.reason = DisconnectedReason.Kicked) ∧
    ((¬ ∃ ds, player.connection = Connection.Disconnected ds ∧
        ds.reason = DisconnectedReason.Kicked) →
      (do_reconnect lobbies lobby_id player_id sink).1 =
        Except.ok { max_players := lobby.max_players, num_spectators := lobby.spectators.length, turn_timer := lobby.turn_timer } ∧
      ∃ lobby', assoc_get (do_reconnect lobbies lobby_id player_id sink).2 lobby_id =
          some lobby' ∧
        assoc_get lobby'.players player_id =
          some { player with connection := Connection.Connected sink }) := by
  rw [do_reconnect_eq lobbies lobby_id player_id sink lobby player hlob hpl]
  by_cases hk : reconnect_kick_check player.connection = true
  · rw [if_pos hk]
    refine ⟨⟨fun _ => (reconnect_kick_check_iff _).mp hk, fun _ => rfl⟩, fun hn => ?_⟩
    exact absurd ((reconnect_kick_check_iff _).mp hk) hn
  · rw [if_neg hk]
    refine ⟨⟨fun hcontra => by simp at hcontra,
      fun hex => absurd ((reconnect_kick_check_iff _).mpr hex) hk⟩, fun _ => ?_⟩
    refine ⟨rfl, _, assoc_get_update lobbies lobby_id _ lobby hlob, ?_⟩
    exact assoc_get_update lobby.players player_id _ player hpl

/-- A concrete one-lobby server: lobby 1 holds player 7, disconnected by
timeout. -/
def c9lobby : Lobby :=
  { players := [(7, { name := "p", turn_number := 0, connection := Connection.Disconnected { reason := DisconnectedReason.TimedOut } })],
    spectators := [], max_players := 4, password := "", game := none,
    owner := 7, name := "l", turn_timer := 30, games_completed := 0 }

/-- C9 witness: reconnecting the timed-out player 7 of lobby 1 on sink 99
succeeds and stores `Connected 99`. -/
theorem do_reconnect_spec_witness :
    (do_reconnect [(1, c9lobby)] 1 7 99).1 =
      Except.ok { max_players := 4, num_spectators := 0, turn_timer := 30 } ∧
    ∃ lobby', assoc_get (do_reconnect [(1, c9lobby)] 1 7 99).2 1 = some lobby' ∧
      assoc_get lobby'.players 7 = some { name := "p", turn_number := 0, connection := Connection.Connected 99 } :=
  (do_reconnect_spec [(1, c9lobby)] 1 7 99 c9lobby
      { name := "p", turn_number := 0, connection := Connection.Disconnected { reason := DisconnectedReason.TimedOut } }
      rfl rfl).2
    (by
      rintro ⟨ds, hds, hkick⟩
      injection hds with hd
      rw [← hd] at hkick
      exact absurd hkick (by decide))

/-! ### C7: lobby listing pagination -/

/-- The `ListLobbies` arm of `Server::handle_message` (lib.rs): from the
lobby map's iteration order, the response's entry list is
`iter().skip(page * 50).map(display)` — there is no `take(50)` — and
`has_next_page` is `lobbies.len() > (page + 1) * 50`.  Abstracted over the
entry type and the `display` projection. -/
def handle_list_lobbies {α β : Type} (lobbies : List α) (display : α → β) (page : Nat) :
    List β × Bool :=
  ((lobbies.drop (page * 50)).map display, decide (lobbies.length > (page + 1) * 50))

/-- C7: with 51 lobbies and page 0 the response contains all 51 entries —
more than the claimed maximum of 50, because the handler skips without
taking.  (`has_next_page` itself is computed as claimed: here it is true,
so page 1 additionally re-serves the 51st lobby.) -/
theorem list_lobbies_no_page_cap :
    (handle_list_lobbies (List.range 51) id 0).1.length = 51 ∧
    50 < (handle_list_lobbies (List.range 51) id 0).1.length ∧
    (handle_list_lobbies (List.range 51) id 0).2 = true ∧
    (handle_list_lobbies (List.range 51) id 1).1.length = 1 := by
  refine ⟨by simp [handle_list_lobbies], by simp [handle_list_lobbies], by decide,
    by simp [handle_list_lobbies]⟩

end Palace

